import Mathlib

/-!
Shallow embedding of the CS307 budget-app prototype (`prototype/app.py`).

Modelling conventions:
* Python `decimal.Decimal` values are modelled by `Dec`: a sign bit, a natural
  coefficient (Python's digit tuple read as a number, leading zeros stripped as
  the constructor does) and an integer exponent.  `Dec` covers finite decimals
  only, and arithmetic is exact (the 28-digit default-context rounding that can
  only be reached with astronomically large amounts is not modelled).  The full
  acceptance of the constructor — including the special values `NaN`/`sNaN`/
  `Infinity`, underscore removal and whitespace stripping — is modelled
  separately by `pyDecAccepts`; stored records whose amount is a special value
  (which the real program loads as a non-finite `Decimal`) are outside the
  finite model and outside the hypotheses of every theorem below.
* Python `datetime.date` is modelled by `Date` together with the validity
  predicate `date(y, m, d)` enforces; `date.fromisoformat` is modelled in its
  documented `YYYY-MM-DD` form.
* The JSON file behind `TransactionRepository` is modelled as
  `Option (List TxRecord)`: `none` is "no file yet", and a `TxRecord` is the
  per-transaction JSON object with its string fields (`note`/`tx_type` are
  `Option` because `from_json` reads them with `dict.get` defaults).
* Exceptions are modelled by `Except Err`; `Err` mirrors the Python exception
  classes that can escape the modelled code (`ValueError` with its message,
  `decimal.InvalidOperation`).  Stateful operations thread the store state
  explicitly and return it alongside the `Except` outcome.
-/

/-- Whitespace stripped by Python `str.strip` (ASCII part). -/
def pyIsSpace (c : Char) : Bool :=
  c = ' ' || c = '\t' || c = '\n' || c = '\r' || c = '\x0b' || c = '\x0c'

/-- Python `str.strip` on a character list. -/
def pyStrip (l : List Char) : List Char :=
  ((l.dropWhile pyIsSpace).reverse.dropWhile pyIsSpace).reverse

/-- Python `str.strip` on strings. -/
def pyStripS (s : String) : String :=
  String.mk (pyStrip s.data)

/-- The character for a decimal digit value. -/
def digitChar (d : Nat) : Char := Char.ofNat (48 + d)

/-- Numeric value of a digit character. -/
def charVal (c : Char) : Nat := c.toNat - 48

/-- Value of a most-significant-first digit string. -/
def digitsVal (l : List Char) : Nat :=
  l.foldl (fun a c => a * 10 + charVal c) 0

/-- Fuelled worker producing the decimal digits of a number, most significant
first (fuel is an upper bound on the number, so it is never exhausted). -/
def natDigitsGo : Nat → Nat → List Char → List Char
  | 0, _, acc => acc
  | fuel+1, n, acc =>
    if n < 10 then digitChar n :: acc
    else natDigitsGo fuel (n / 10) (digitChar (n % 10) :: acc)

/-- Decimal digit characters of `n`, most significant first (`"0"` for 0),
as Python `str`/`repr` prints a nonnegative integer. -/
def natDigits (n : Nat) : List Char := natDigitsGo (n + 1) n []

/-- Model of a finite Python `decimal.Decimal`: `(-1)^sign * coeff * 10^exp`,
with the coefficient and exponent kept separately exactly as Python does
(`Decimal("1.0")` and `Decimal("1.00")` are different values of `Dec`). -/
structure Dec where
  sign : Bool
  coeff : Nat
  exp : Int
deriving DecidableEq, Repr

/-- Optional leading sign of a numeric literal, as `Decimal`'s parser reads
it: `+`/`-` consumed, anything else left in place. -/
def parseSign (l : List Char) : Bool × List Char :=
  match l with
  | c :: rest =>
    if c = '+' then (false, rest)
    else if c = '-' then (true, rest)
    else (false, l)
  | [] => (false, [])

/-- Split a longest digit run off the front of the input. -/
def readDigits (l : List Char) : List Char × List Char :=
  (l.takeWhile Char.isDigit, l.dropWhile Char.isDigit)

/-- Fractional part after the integer digits: a `.` followed by a digit run,
or nothing. -/
def splitFrac (l : List Char) : List Char × List Char :=
  match l with
  | c :: t => if c = '.' then readDigits t else ([], l)
  | [] => ([], [])

/-- Optional exponent suffix `e`/`E`, sign, digits; `some 0` when absent,
`none` when the remaining input is not exactly an exponent suffix. -/
def parseExpPart (l : List Char) : Option Int :=
  match l with
  | [] => some 0
  | c :: rest =>
    if c = 'e' ∨ c = 'E' then
      let p := parseSign rest
      let d := readDigits p.2
      if d.1 = [] then none
      else if d.2 = [] then
        some (if p.1 then -(digitsVal d.1 : Int) else (digitsVal d.1 : Int))
      else none
    else none

/-- Body of the decimal literal after the sign: digits, optional fraction,
optional exponent, nothing left over. -/
def parseBody (s : Bool) (r : List Char) : Option Dec :=
  let p1 := readDigits r
  let p2 := splitFrac p1.2
  if p1.1 = [] ∧ p2.1 = [] then none
  else
    match parseExpPart p2.2 with
    | none => none
    | some e => some ⟨s, digitsVal (p1.1 ++ p2.1), e - p2.1.length⟩

/-- Parse a finite decimal literal, as the `Decimal` constructor does
(`sign? (digits (. digits?)? | . digits) ((e|E) sign? digits)?`). -/
def Dec.parseChars (l : List Char) : Option Dec :=
  let p := parseSign l
  parseBody p.1 p.2

/-- String form of `Dec.parseChars`. -/
def Dec.parse (s : String) : Option Dec := Dec.parseChars s.data

/-- Leading sign characters of a printed decimal. -/
def signChars (s : Bool) : List Char := if s then ['-'] else []

/-- Mantissa of a scientific-notation decimal: the digit string with a point
after the first digit when there is more than one. -/
def sciMant : List Char → List Char
  | [c] => [c]
  | c :: rest => c :: '.' :: rest
  | [] => []

/-- Print a decimal from its digit string `D` and exponent `e`, following the
to-scientific-string conversion of the decimal specification: plain notation
when `e ≤ 0` and the adjusted exponent is ≥ -6, scientific (`d.dddE±n`)
otherwise. -/
def sciFromDigits (s : Bool) (D : List Char) (e : Int) : List Char :=
  if e ≤ 0 ∧ -6 ≤ e + D.length - 1 then
    if e = 0 then signChars s ++ D
    else if ((-e).toNat : Int) < D.length then
      signChars s ++ (D.take (D.length - (-e).toNat) ++ '.' :: D.drop (D.length - (-e).toNat))
    else
      signChars s ++ '0' :: '.' :: (List.replicate ((-e).toNat - D.length) '0' ++ D)
  else
    signChars s ++ sciMant D ++
      'E' :: (if e + D.length - 1 < 0 then '-' else '+') :: natDigits (e + D.length - 1).natAbs

/-- Python `str(Decimal)` on a finite decimal. -/
def Dec.toSciChars (d : Dec) : List Char :=
  sciFromDigits d.sign (natDigits d.coeff) d.exp

/-- String form of `Dec.toSciChars`. -/
def Dec.toSci (d : Dec) : String := String.mk d.toSciChars

/-- Python `amount <= 0` on a finite decimal. -/
def Dec.isNonPos (d : Dec) : Bool := d.sign || d.coeff == 0

/-- Python `amount.quantize(Decimal("0.01"))`: rescale to exponent -2 with
round-half-even (the default context rounding). -/
def Dec.quantize2 (d : Dec) : Dec :=
  if -2 ≤ d.exp then ⟨d.sign, d.coeff * 10 ^ (d.exp + 2).toNat, -2⟩
  else
    let k := (-2 - d.exp).toNat
    let m := 10 ^ k
    let q := d.coeff / m
    let r := d.coeff % m
    ⟨d.sign, if m < 2 * r then q + 1 else if 2 * r < m then q else q + q % 2, -2⟩

/-- Exact decimal addition: operands aligned at the smaller exponent, which
the exact (unrounded) result keeps; a zero result of same-signed zeros keeps
the sign, any other zero result is positive, as in Python. -/
def Dec.add (a b : Dec) : Dec :=
  let e := min a.exp b.exp
  let ia : Int := (if a.sign then -(a.coeff : Int) else (a.coeff : Int)) * 10 ^ (a.exp - e).toNat
  let ib : Int := (if b.sign then -(b.coeff : Int) else (b.coeff : Int)) * 10 ^ (b.exp - e).toNat
  let c := ia + ib
  if c = 0 then ⟨a.sign && b.sign, 0, e⟩
  else ⟨decide (c < 0), c.natAbs, e⟩

/-- Decimal negation (sign flip). -/
def Dec.neg (d : Dec) : Dec := ⟨!d.sign, d.coeff, d.exp⟩

/-- Decimal subtraction `a - b = a + (-b)`. -/
def Dec.sub (a b : Dec) : Dec := a.add b.neg

/-- `Decimal("0")`. -/
def Dec.zero : Dec := ⟨false, 0, 0⟩

/-- Model of `datetime.date` as a raw year/month/day triple; validity is the
separate predicate `Date.validb` below. -/
structure Date where
  year : Nat
  month : Nat
  day : Nat
deriving DecidableEq, Repr

/-- Gregorian leap year, as `calendar.isleap`/`datetime` use. -/
def isLeap (y : Nat) : Bool := y % 4 = 0 && (y % 100 ≠ 0 || y % 400 = 0)

/-- Number of days in a month. -/
def daysInMonth (y m : Nat) : Nat :=
  if m = 2 then (if isLeap y then 29 else 28)
  else if m = 4 ∨ m = 6 ∨ m = 9 ∨ m = 11 then 30
  else 31

/-- The invariant `datetime.date(y, m, d)` enforces at construction. -/
def Date.validb (d : Date) : Bool :=
  1 ≤ d.year && d.year ≤ 9999 && 1 ≤ d.month && d.month ≤ 12 &&
  1 ≤ d.day && d.day ≤ daysInMonth d.year d.month

/-- Validity of a `Date` as a proposition. -/
def Date.Valid (d : Date) : Prop := d.validb = true

instance (d : Date) : Decidable d.Valid := by
  unfold Date.Valid
  infer_instance

/-- The `datetime.date(y, m, d)` constructor: a date when the triple is
constructible, `none` standing for the `ValueError` it otherwise raises. -/
def mkValidDate (y m d : Nat) : Option Date :=
  if Date.validb ⟨y, m, d⟩ then some ⟨y, m, d⟩ else none

/-- `date.fromisoformat` on a character list: exactly `YYYY-MM-DD`, all
digits, naming a constructible date. -/
def Date.parseChars : List Char → Option Date
  | [y1, y2, y3, y4, s1, m1, m2, s2, d1, d2] =>
    if y1.isDigit ∧ y2.isDigit ∧ y3.isDigit ∧ y4.isDigit ∧ s1 = '-' ∧
       m1.isDigit ∧ m2.isDigit ∧ s2 = '-' ∧ d1.isDigit ∧ d2.isDigit then
      mkValidDate (digitsVal [y1, y2, y3, y4]) (digitsVal [m1, m2]) (digitsVal [d1, d2])
    else none
  | _ => none

/-- String form of `Date.parseChars`. -/
def Date.parse (s : String) : Option Date := Date.parseChars s.data

/-- Two-digit zero-padded field, as `%02d` and `date.isoformat` print
months and days. -/
def pad2 (n : Nat) : List Char := [digitChar (n / 10 % 10), digitChar (n % 10)]

/-- Four-digit zero-padded field, as `date.isoformat` prints years. -/
def pad4 (n : Nat) : List Char :=
  [digitChar (n / 1000 % 10), digitChar (n / 100 % 10), digitChar (n / 10 % 10), digitChar (n % 10)]

/-- `date.isoformat`: `YYYY-MM-DD`. -/
def Date.isoformatChars (d : Date) : List Char :=
  pad4 d.year ++ '-' :: (pad2 d.month ++ '-' :: pad2 d.day)

/-- String form of `Date.isoformatChars`. -/
def Date.isoformat (d : Date) : String := String.mk d.isoformatChars

/-- Python `<` on dates (lexicographic on year, month, day). -/
def Date.ltb (a b : Date) : Bool :=
  a.year < b.year ||
  (a.year = b.year && (a.month < b.month || (a.month = b.month && a.day < b.day)))

/-- The `Transaction` frozen dataclass. -/
structure Transaction where
  transaction_id : String
  user_id : String
  amount : Dec
  category : String
  occurred_on : Date
  note : String
  tx_type : String
deriving DecidableEq, Repr

/-- One serialized transaction object inside the JSON file: the dictionary
`Transaction.to_json` produces / `Transaction.from_json` consumes.  `note`
and `tx_type` are optional because `from_json` reads them with `d.get`
defaults; the other keys are accessed unconditionally. -/
structure TxRecord where
  transaction_id : String
  user_id : String
  amount : String
  category : String
  occurred_on : String
  note : Option String
  tx_type : Option String
deriving DecidableEq, Repr

/-- Exceptions escaping the modelled code: `ValueError` (with its message) and
`decimal.InvalidOperation`.  The program defines no persistence-specific
exception class. -/
inductive Err where
  | valueError (msg : String)
  | invalidOperation
deriving DecidableEq, Repr

deriving instance DecidableEq for Except

/-- `Transaction.to_json`: `asdict` with the amount as `str(Decimal)` and the
date as `isoformat`. -/
def Transaction.to_json (t : Transaction) : TxRecord :=
  { transaction_id := t.transaction_id
    user_id := t.user_id
    amount := t.amount.toSci
    category := t.category
    occurred_on := t.occurred_on.isoformat
    note := some t.note
    tx_type := some t.tx_type }

/-- `Transaction.from_json`: `Decimal(d["amount"])` (raising
`decimal.InvalidOperation` on a bad literal), `date.fromisoformat` (raising
`ValueError` on a bad literal), `d.get` defaults for `note`/`tx_type`.  The
finite branch of the constructor is modelled here; an amount string the real
constructor accepts as a special value or only after its preprocessing
(see `pyDecAccepts`) is outside the finite model, and no theorem below
quantifies over such records. -/
def Transaction.from_json (r : TxRecord) : Except Err Transaction :=
  match Dec.parse r.amount with
  | none => .error .invalidOperation
  | some a =>
    match Date.parse r.occurred_on with
    | none => .error (.valueError ("Invalid isoformat string: " ++ r.occurred_on))
    | some d =>
      .ok { transaction_id := r.transaction_id
            user_id := r.user_id
            amount := a
            category := r.category
            occurred_on := d
            note := r.note.getD ""
            tx_type := r.tx_type.getD "EXPENSE" }

/-- State of the backing JSON file: `none` when the file does not exist,
otherwise the list of serialized transaction objects it holds. -/
abbrev St := Option (List TxRecord)

/-- The list comprehension `[Transaction.from_json(x) for x in ...]`: the
first exception propagates. -/
def parse_records : List TxRecord → Except Err (List Transaction)
  | [] => .ok []
  | r :: rs =>
    match Transaction.from_json r with
    | .error e => .error e
    | .ok t =>
      match parse_records rs with
      | .error e => .error e
      | .ok ts => .ok (t :: ts)

/-- `TransactionRepository.load_all`: empty list when no file exists,
otherwise every stored record deserialized in order. -/
def load_all (st : St) : Except Err (List Transaction) :=
  match st with
  | none => .ok []
  | some recs => parse_records recs

/-- `TransactionRepository.save_all`: overwrite the file with the serialized
transactions. -/
def save_all (txs : List Transaction) : St :=
  some (txs.map Transaction.to_json)

/-- `TransactionRepository.append`: `load_all`, push, `save_all`; a load
failure propagates and leaves the file untouched. -/
def append (st : St) (t : Transaction) : St × Except Err Unit :=
  match load_all st with
  | .error e => (st, .error e)
  | .ok txs => (save_all (txs ++ [t]), .ok ())

/-- The dictionary `ReportService.monthly_totals` returns. -/
structure Totals where
  income : Dec
  expense : Dec
  net : Dec
deriving DecidableEq, Repr

/-- Python `str.upper` in its ASCII case mapping, computed structurally on
the character list (Lean's own `String.toUpper` is the same map but is not
kernel-reducible). -/
def upperS (s : String) : String := String.mk (s.data.map Char.toUpper)

/-- The accumulation loop of `monthly_totals`: skip other users and other
months, add `INCOME`-typed amounts (case-insensitively) to the first
component and every other matching amount to the second. -/
def totals_fold (txs : List Transaction) (user_id : String) (year month : Nat) : Dec × Dec :=
  txs.foldl
    (fun acc t =>
      if t.user_id = user_id then
        if t.occurred_on.year = year ∧ t.occurred_on.month = month then
          if upperS t.tx_type = "INCOME" then (acc.1.add t.amount, acc.2)
          else (acc.1, acc.2.add t.amount)
        else acc
      else acc)
    (Dec.zero, Dec.zero)

/-- `ReportService.monthly_totals`: load everything, run the loop, return
income/expense/net.  It takes the store state and returns only a value: the
state is never modified (the Python method only calls `load_all`). -/
def monthly_totals (st : St) (user_id : String) (year month : Nat) : Except Err Totals :=
  match load_all st with
  | .error e => .error e
  | .ok txs =>
    let p := totals_fold txs user_id year month
    .ok ⟨p.1, p.2, p.1.sub p.2⟩

/-- Validation-error messages of `ExpenseService`, verbatim. -/
def amountInvalidMsg : String := "Amount must be a valid number (e.g., 12.50)."

/-- Message for a non-positive amount. -/
def amountNonPosMsg : String := "Amount must be greater than 0."

/-- Message for a blank category. -/
def categoryRequiredMsg : String := "Category is required."

/-- Message for an over-long category. -/
def categoryTooLongMsg : String := "Category must be 30 characters or less."

/-- Message for an unparsable date. -/
def dateFormatMsg : String := "Date must be in ISO format YYYY-MM-DD."

/-- Message for a future date. -/
def dateFutureMsg : String := "Date cannot be in the future for an expense entry."

/-- `ExpenseService._validate_amount`: strip, parse as `Decimal` (else
`ValueError`), reject ≤ 0, quantize to cents. -/
def validate_amount (amount_str : String) : Except Err Dec :=
  match Dec.parse (pyStripS amount_str) with
  | none => .error (.valueError amountInvalidMsg)
  | some a =>
    if a.isNonPos then .error (.valueError amountNonPosMsg)
    else .ok a.quantize2

/-- `ExpenseService._validate_category`: reject blank-after-strip, reject
stripped length > 30, return the stripped value. -/
def validate_category (category : String) : Except Err String :=
  if pyStripS category = "" then .error (.valueError categoryRequiredMsg)
  else if 30 < (pyStripS category).length then .error (.valueError categoryTooLongMsg)
  else .ok (pyStripS category)

/-- `ExpenseService._validate_date`: strip, `date.fromisoformat` (else
`ValueError`), reject dates strictly after today. -/
def validate_date (today : Date) (date_str : String) : Except Err Date :=
  match Date.parse (pyStripS date_str) with
  | none => .error (.valueError dateFormatMsg)
  | some d =>
    if today.ltb d then .error (.valueError dateFutureMsg)
    else .ok d

/-- The dictionary `add_expense` returns on success. -/
structure AddResult where
  transaction_id : String
  month : String
  income : String
  expense : String
  net : String
deriving DecidableEq, Repr

/-- `transaction_id or self._new_tx_id()`: Python `or` also replaces an empty
(falsy) explicit id; `gen_id` stands for the `_new_tx_id()` clock value. -/
def choose_id (gen_id : String) : Option String → String
  | some s => if s = "" then gen_id else s
  | none => gen_id

/-- The `f"{year}-{month:02d}"` month label. -/
def month_label (d : Date) : String :=
  String.mk (natDigits d.year ++ '-' :: pad2 d.month)

/-- `ExpenseService.add_expense`: validate amount, category, date (in that
order, first failure short-circuiting before any store access), build the
EXPENSE transaction, `append` it, then report the month's totals.  `today`
stands for `date.today()` and `gen_id` for the `_new_tx_id()` clock value;
the store state is threaded explicitly and returned next to the outcome. -/
def add_expense (st : St) (today : Date) (gen_id : String)
    (user_id amount_str category date_str note : String)
    (transaction_id : Option String) : St × Except Err AddResult :=
  match validate_amount amount_str with
  | .error e => (st, .error e)
  | .ok amount =>
    match validate_category category with
    | .error e => (st, .error e)
    | .ok category_clean =>
      match validate_date today date_str with
      | .error e => (st, .error e)
      | .ok occurred_on =>
        let tx_id := choose_id gen_id transaction_id
        let tx : Transaction :=
          { transaction_id := tx_id
            user_id := user_id
            amount := amount
            category := category_clean
            occurred_on := occurred_on
            note := pyStripS note
            tx_type := "EXPENSE" }
        match append st tx with
        | (st1, .error e) => (st1, .error e)
        | (st1, .ok _) =>
          match monthly_totals st1 user_id occurred_on.year occurred_on.month with
          | .error e => (st1, .error e)
          | .ok totals =>
            (st1, .ok { transaction_id := tx_id
                        month := month_label occurred_on
                        income := totals.income.toSci
                        expense := totals.expense.toSci
                        net := totals.net.toSci })

/-! ### Digit-string lemmas -/

/-- Reading back the character of a digit value. -/
theorem charVal_digitChar {d : Nat} (h : d < 10) : charVal (digitChar d) = d := by
  interval_cases d <;> decide

/-- Digit characters are digits. -/
theorem isDigit_digitChar {d : Nat} (h : d < 10) : (digitChar d).isDigit = true := by
  interval_cases d <;> decide

/-- Digit characters are not `+`. -/
theorem ne_plus_of_isDigit {c : Char} (h : c.isDigit = true) : c ≠ '+' := by
  intro he; subst he; exact absurd h (by decide)

/-- Digit characters are not `-`. -/
theorem ne_minus_of_isDigit {c : Char} (h : c.isDigit = true) : c ≠ '-' := by
  intro he; subst he; exact absurd h (by decide)

/-- Folding the digit accumulator from an arbitrary start. -/
theorem digitsVal_foldl (l : List Char) (a : Nat) :
    l.foldl (fun a c => a * 10 + charVal c) a = a * 10 ^ l.length + digitsVal l := by
  induction l generalizing a with
  | nil => simp [digitsVal]
  | cons c t ih =>
    simp only [List.foldl_cons, digitsVal, List.length_cons]
    rw [ih (a * 10 + charVal c), ih (0 * 10 + charVal c)]
    ring

/-- Value of a concatenated digit string. -/
theorem digitsVal_append (A B : List Char) :
    digitsVal (A ++ B) = digitsVal A * 10 ^ B.length + digitsVal B := by
  unfold digitsVal
  rw [List.foldl_append, digitsVal_foldl]
  rfl

/-- A leading zero character does not change the value. -/
theorem digitsVal_cons_zero (w : List Char) : digitsVal ('0' :: w) = digitsVal w := by
  simp [digitsVal, charVal]

/-- Leading zero padding does not change the value. -/
theorem digitsVal_replicate_zero (k : Nat) (w : List Char) :
    digitsVal (List.replicate k '0' ++ w) = digitsVal w := by
  induction k with
  | zero => rfl
  | succ n ih => rw [List.replicate_succ, List.cons_append, digitsVal_cons_zero, ih]

/-- The digit-printing worker only appends to its accumulator. -/
theorem natDigitsGo_append (fuel : Nat) : ∀ n acc, natDigitsGo fuel n acc = natDigitsGo fuel n [] ++ acc := by
  induction fuel with
  | zero => intro n acc; rfl
  | succ f ih =>
    intro n acc
    by_cases h : n < 10
    · simp [natDigitsGo, h]
    · simp only [natDigitsGo, if_neg h]
      rw [ih (n / 10) (digitChar (n % 10) :: acc), ih (n / 10) [digitChar (n % 10)]]
      simp

/-- Correctness of the digit-printing worker: value, digit-ness, nonemptiness. -/
theorem natDigitsGo_spec (fuel : Nat) : ∀ n, n < fuel →
    digitsVal (natDigitsGo fuel n []) = n ∧
    (∀ c ∈ natDigitsGo fuel n [], c.isDigit = true) ∧
    natDigitsGo fuel n [] ≠ [] := by
  induction fuel with
  | zero => intro n h; omega
  | succ f ih =>
    intro n hn
    by_cases h : n < 10
    · refine ⟨?_, ?_, ?_⟩
      · simp [natDigitsGo, h, digitsVal, charVal_digitChar h]
      · simp only [natDigitsGo, if_pos h]
        intro c hc
        rw [List.mem_singleton] at hc
        subst hc
        exact isDigit_digitChar h
      · simp [natDigitsGo, h]
    · have hdiv : n / 10 < f := by omega
      obtain ⟨hv, hd, hne⟩ := ih (n / 10) hdiv
      simp only [natDigitsGo, if_neg h]
      rw [natDigitsGo_append f (n / 10) [digitChar (n % 10)]]
      refine ⟨?_, ?_, ?_⟩
      · rw [digitsVal_append, hv]
        have : digitsVal [digitChar (n % 10)] = n % 10 := by
          simp [digitsVal, charVal_digitChar (Nat.mod_lt n (by omega))]
        rw [this]
        simp only [List.length_singleton, pow_one]
        omega
      · intro c hc
        rcases List.mem_append.mp hc with hc | hc
        · exact hd c hc
        · rw [List.mem_singleton] at hc
          subst hc
          exact isDigit_digitChar (Nat.mod_lt n (by omega))
      · simp [hne]

/-- `natDigits` prints the value back. -/
theorem digitsVal_natDigits (n : Nat) : digitsVal (natDigits n) = n :=
  (natDigitsGo_spec (n + 1) n (Nat.lt_succ_self n)).1

/-- All characters of `natDigits` are digits. -/
theorem natDigits_digits (n : Nat) : ∀ c ∈ natDigits n, c.isDigit = true :=
  (natDigitsGo_spec (n + 1) n (Nat.lt_succ_self n)).2.1

/-- `natDigits` is never empty. -/
theorem natDigits_ne_nil (n : Nat) : natDigits n ≠ [] :=
  (natDigitsGo_spec (n + 1) n (Nat.lt_succ_self n)).2.2

/-! ### takeWhile / dropWhile helpers -/

/-- `takeWhile` keeps a list all of whose elements satisfy the predicate. -/
theorem takeWhile_all {p : Char → Bool} : ∀ {l : List Char}, (∀ c ∈ l, p c = true) → l.takeWhile p = l := by
  intro l
  induction l with
  | nil => intro _; rfl
  | cons c t ih =>
    intro h
    rw [List.takeWhile_cons, if_pos (h c (List.mem_cons_self c t))]
    rw [ih (fun d hd => h d (List.mem_cons_of_mem c hd))]

/-- `dropWhile` drops a list all of whose elements satisfy the predicate. -/
theorem dropWhile_all {p : Char → Bool} : ∀ {l : List Char}, (∀ c ∈ l, p c = true) → l.dropWhile p = [] := by
  intro l
  induction l with
  | nil => intro _; rfl
  | cons c t ih =>
    intro h
    rw [List.dropWhile_cons, if_pos (h c (List.mem_cons_self c t))]
    exact ih (fun d hd => h d (List.mem_cons_of_mem c hd))

/-- `takeWhile` stops exactly at the first failing element. -/
theorem takeWhile_append_cons {p : Char → Bool} {b : Char} (hb : p b = false) :
    ∀ {A : List Char}, (∀ c ∈ A, p c = true) → ∀ B, (A ++ b :: B).takeWhile p = A := by
  intro A
  induction A with
  | nil =>
    intro _ B
    rw [List.nil_append, List.takeWhile_cons, if_neg (by simp [hb])]
  | cons c t ih =>
    intro h B
    rw [List.cons_append, List.takeWhile_cons, if_pos (h c (List.mem_cons_self c t))]
    rw [ih (fun d hd => h d (List.mem_cons_of_mem c hd)) B]

/-- `dropWhile` stops exactly at the first failing element. -/
theorem dropWhile_append_cons {p : Char → Bool} {b : Char} (hb : p b = false) :
    ∀ {A : List Char}, (∀ c ∈ A, p c = true) → ∀ B, (A ++ b :: B).dropWhile p = b :: B := by
  intro A
  induction A with
  | nil =>
    intro _ B
    rw [List.nil_append, List.dropWhile_cons, if_neg (by simp [hb])]
  | cons c t ih =>
    intro h B
    rw [List.cons_append, List.dropWhile_cons, if_pos (h c (List.mem_cons_self c t))]
    exact ih (fun d hd => h d (List.mem_cons_of_mem c hd)) B

/-- `readDigits` consumes an all-digit list entirely. -/
theorem readDigits_all {A : List Char} (h : ∀ c ∈ A, c.isDigit = true) :
    readDigits A = (A, []) := by
  unfold readDigits
  rw [takeWhile_all h, dropWhile_all h]

/-- `readDigits` splits at the first non-digit. -/
theorem readDigits_split {A : List Char} {b : Char} (hA : ∀ c ∈ A, c.isDigit = true)
    (hb : b.isDigit = false) (B : List Char) : readDigits (A ++ b :: B) = (A, b :: B) := by
  unfold readDigits
  rw [takeWhile_append_cons hb hA B, dropWhile_append_cons hb hA B]

/-! ### Decimal print/parse round trip -/

/-- A minus sign is consumed. -/
theorem parseSign_minus (r : List Char) : parseSign ('-' :: r) = (true, r) := rfl

/-- A plus sign is consumed. -/
theorem parseSign_plus (r : List Char) : parseSign ('+' :: r) = (false, r) := rfl

/-- Any other head is left in place. -/
theorem parseSign_other {c : Char} (h1 : c ≠ '+') (h2 : c ≠ '-') (t : List Char) :
    parseSign (c :: t) = (false, c :: t) := by
  simp only [parseSign]
  rw [if_neg h1, if_neg h2]

/-- The decimal parser is the sign parser followed by the body parser. -/
theorem parseChars_eq (l : List Char) :
    Dec.parseChars l = parseBody (parseSign l).1 (parseSign l).2 := rfl

/-- A sign prefix followed by a digit-headed body parses as that body. -/
theorem parseChars_signChars (s : Bool) {c : Char} (t : List Char) (hc : c.isDigit = true) :
    Dec.parseChars (signChars s ++ c :: t) = parseBody s (c :: t) := by
  cases s with
  | true =>
    show Dec.parseChars ('-' :: c :: t) = parseBody true (c :: t)
    rw [parseChars_eq, parseSign_minus]
  | false =>
    show Dec.parseChars (c :: t) = parseBody false (c :: t)
    rw [parseChars_eq, parseSign_other (ne_plus_of_isDigit hc) (ne_minus_of_isDigit hc)]

/-- The fraction splitter on a point-headed list reads the following digits. -/
theorem splitFrac_dot (t : List Char) : splitFrac ('.' :: t) = readDigits t := by
  simp [splitFrac]

/-- The fraction splitter leaves a non-point-headed list alone. -/
theorem splitFrac_not_dot {c : Char} (t : List Char) (h : c ≠ '.') :
    splitFrac (c :: t) = ([], c :: t) := by
  simp [splitFrac, h]

/-- An exponent suffix with a minus sign parses to the negated digit value. -/
theorem parseExpPart_neg {ds : List Char} (hds : ∀ c ∈ ds, c.isDigit = true) (hne : ds ≠ []) :
    parseExpPart ('E' :: '-' :: ds) = some (-(digitsVal ds : Int)) := by
  have h1 : ds.takeWhile Char.isDigit = ds := takeWhile_all hds
  have h2 : ds.dropWhile Char.isDigit = [] := dropWhile_all hds
  simp [parseExpPart, parseSign, readDigits, h1, h2, hne]

/-- An exponent suffix with a plus sign parses to the digit value. -/
theorem parseExpPart_pos {ds : List Char} (hds : ∀ c ∈ ds, c.isDigit = true) (hne : ds ≠ []) :
    parseExpPart ('E' :: '+' :: ds) = some ((digitsVal ds : Int)) := by
  have h1 : ds.takeWhile Char.isDigit = ds := takeWhile_all hds
  have h2 : ds.dropWhile Char.isDigit = [] := dropWhile_all hds
  simp [parseExpPart, parseSign, readDigits, h1, h2, hne]

/-- The literal body consisting of digits alone parses with exponent 0. -/
theorem parseBody_digits (s : Bool) {D : List Char} (hD : ∀ c ∈ D, c.isDigit = true)
    (hne : D ≠ []) : parseBody s D = some ⟨s, digitsVal D, 0⟩ := by
  have h1 : readDigits D = (D, []) := readDigits_all hD
  simp [parseBody, h1, splitFrac, parseExpPart, hne]

/-- A digit run, point, digit run body parses with the concatenated
coefficient and the negated fraction length as exponent. -/
theorem parseBody_point (s : Bool) {I F : List Char} (hI : ∀ c ∈ I, c.isDigit = true)
    (hF : ∀ c ∈ F, c.isDigit = true) (hne : I ≠ []) :
    parseBody s (I ++ '.' :: F) = some ⟨s, digitsVal (I ++ F), -(F.length : Int)⟩ := by
  have h1 : readDigits (I ++ '.' :: F) = (I, '.' :: F) := readDigits_split hI (by decide) F
  have h2 : splitFrac ('.' :: F) = (F, []) := by rw [splitFrac_dot]; exact readDigits_all hF
  simp [parseBody, h1, h2, parseExpPart, hne]

/-- A digit run followed by an exponent suffix parses with that exponent. -/
theorem parseBody_int_exp (s : Bool) {I rest : List Char} {E : Int}
    (hI : ∀ c ∈ I, c.isDigit = true) (hne : I ≠ [])
    (hrest : parseExpPart ('E' :: rest) = some E) :
    parseBody s (I ++ 'E' :: rest) = some ⟨s, digitsVal I, E⟩ := by
  have h1 : readDigits (I ++ 'E' :: rest) = (I, 'E' :: rest) :=
    readDigits_split hI (by decide) rest
  have h2 : splitFrac ('E' :: rest) = ([], 'E' :: rest) := splitFrac_not_dot rest (by decide)
  simp [parseBody, h1, h2, hrest, hne]

/-- A digit run, point, digit run, exponent suffix parses with the
concatenated coefficient and the adjusted exponent. -/
theorem parseBody_point_exp (s : Bool) {I F rest : List Char} {E : Int}
    (hI : ∀ c ∈ I, c.isDigit = true) (hF : ∀ c ∈ F, c.isDigit = true) (hne : I ≠ [])
    (hrest : parseExpPart ('E' :: rest) = some E) :
    parseBody s (I ++ '.' :: (F ++ 'E' :: rest)) = some ⟨s, digitsVal (I ++ F), E - F.length⟩ := by
  have h1 : readDigits (I ++ '.' :: (F ++ 'E' :: rest)) = (I, '.' :: (F ++ 'E' :: rest)) :=
    readDigits_split hI (by decide) _
  have h2 : splitFrac ('.' :: (F ++ 'E' :: rest)) = (F, 'E' :: rest) := by
    rw [splitFrac_dot]; exact readDigits_split hF (by decide) rest
  simp [parseBody, h1, h2, hrest, hne]

/-- Printing any digit string with `sciFromDigits` and reparsing recovers the
sign, the digit value and the exponent. -/
theorem parseChars_sciFromDigits (s : Bool) (D : List Char) (e : Int)
    (hD : ∀ c ∈ D, c.isDigit = true) (hne : D ≠ []) :
    Dec.parseChars (sciFromDigits s D e) = some ⟨s, digitsVal D, e⟩ := by
  by_cases h1 : e ≤ 0 ∧ -6 ≤ e + (D.length : Int) - 1
  · by_cases h2 : e = 0
    · subst h2
      obtain ⟨c, t, rfl⟩ := List.exists_cons_of_ne_nil hne
      rw [sciFromDigits, if_pos h1, if_pos rfl]
      rw [parseChars_signChars s t (hD c (List.mem_cons_self c t))]
      exact parseBody_digits s hD hne
    · by_cases h3 : (((-e).toNat : Int) < D.length)
      · have hIne : D.take (D.length - (-e).toNat) ≠ [] := by
          intro hnil
          have hlt := congrArg List.length hnil
          rw [List.length_take] at hlt
          simp only [List.length_nil] at hlt
          omega
        obtain ⟨c, t, hct⟩ := List.exists_cons_of_ne_nil hIne
        have hcD : c.isDigit = true := by
          apply hD
          apply List.take_subset (D.length - (-e).toNat)
          rw [hct]
          exact List.mem_cons_self c t
        rw [sciFromDigits, if_pos h1, if_neg h2, if_pos h3, hct]
        have hshape : (c :: t) ++ '.' :: D.drop (D.length - (-e).toNat) =
            c :: (t ++ '.' :: D.drop (D.length - (-e).toNat)) := by simp
        rw [hshape, parseChars_signChars s _ hcD, ← hshape, ← hct]
        rw [parseBody_point s (fun x hx => hD x (List.take_subset _ D hx))
          (fun x hx => hD x (List.drop_subset _ D hx)) hIne]
        rw [List.take_append_drop]
        have hlen : (D.drop (D.length - (-e).toNat)).length = (-e).toNat := by
          rw [List.length_drop]
          omega
        rw [hlen]
        congr 1
        congr 1
        omega
      · have hZD : ∀ x ∈ List.replicate ((-e).toNat - D.length) '0' ++ D, x.isDigit = true := by
          intro x hx
          rcases List.mem_append.mp hx with hx | hx
          · rw [List.eq_of_mem_replicate hx]; decide
          · exact hD x hx
        rw [sciFromDigits, if_pos h1, if_neg h2, if_neg h3]
        have hshape : signChars s ++ '0' :: '.' :: (List.replicate ((-e).toNat - D.length) '0' ++ D) =
            signChars s ++ ('0' :: ('.' :: (List.replicate ((-e).toNat - D.length) '0' ++ D))) := rfl
        rw [hshape, parseChars_signChars s _ (by decide)]
        have hshape2 : ('0' :: ('.' :: (List.replicate ((-e).toNat - D.length) '0' ++ D))) =
            ['0'] ++ '.' :: (List.replicate ((-e).toNat - D.length) '0' ++ D) := rfl
        rw [hshape2, parseBody_point s (by decide) hZD (by decide)]
        have hval : digitsVal (['0'] ++ (List.replicate ((-e).toNat - D.length) '0' ++ D)) =
            digitsVal D := by
          rw [List.singleton_append, digitsVal_cons_zero, digitsVal_replicate_zero]
        rw [hval]
        congr 1
        congr 1
        have : (List.replicate ((-e).toNat - D.length) '0' ++ D).length =
            ((-e).toNat - D.length) + D.length := by simp
        rw [this]
        omega
  · rw [sciFromDigits, if_neg h1]
    have hds : ∀ c ∈ natDigits (e + (D.length : Int) - 1).natAbs, c.isDigit = true :=
      natDigits_digits _
    have hdsne : natDigits (e + (D.length : Int) - 1).natAbs ≠ [] := natDigits_ne_nil _
    have hE : parseExpPart ('E' :: (if e + (D.length : Int) - 1 < 0 then '-' else '+') ::
        natDigits (e + (D.length : Int) - 1).natAbs) = some (e + (D.length : Int) - 1) := by
      by_cases hadj : e + (D.length : Int) - 1 < 0
      · rw [if_pos hadj, parseExpPart_neg hds hdsne, digitsVal_natDigits]
        congr 1
        omega
      · rw [if_neg hadj, parseExpPart_pos hds hdsne, digitsVal_natDigits]
        congr 1
        omega
    obtain ⟨c, t, rfl⟩ := List.exists_cons_of_ne_nil hne
    have hcD : c.isDigit = true := hD c (List.mem_cons_self c t)
    cases t with
    | nil =>
      have hshape : signChars s ++ sciMant [c] ++ 'E' ::
          (if e + ([c].length : Int) - 1 < 0 then '-' else '+') ::
          natDigits (e + ([c].length : Int) - 1).natAbs =
          signChars s ++ (c :: ('E' ::
            (if e + ([c].length : Int) - 1 < 0 then '-' else '+') ::
            natDigits (e + ([c].length : Int) - 1).natAbs)) := by
        simp [sciMant]
      rw [hshape, parseChars_signChars s _ hcD]
      have hshape2 : (c :: ('E' ::
          (if e + ([c].length : Int) - 1 < 0 then '-' else '+') ::
          natDigits (e + ([c].length : Int) - 1).natAbs)) =
          [c] ++ 'E' ::
          (if e + ([c].length : Int) - 1 < 0 then '-' else '+') ::
          natDigits (e + ([c].length : Int) - 1).natAbs := rfl
      rw [hshape2, parseBody_int_exp s hD (by simp) hE]
      congr 1
      congr 1
      simp
    | cons r t' =>
      have hmant : sciMant (c :: r :: t') = c :: '.' :: (r :: t') := rfl
      have hshape : signChars s ++ sciMant (c :: r :: t') ++ 'E' ::
          (if e + ((c :: r :: t').length : Int) - 1 < 0 then '-' else '+') ::
          natDigits (e + ((c :: r :: t').length : Int) - 1).natAbs =
          signChars s ++ (c :: ('.' :: ((r :: t') ++ 'E' ::
            (if e + ((c :: r :: t').length : Int) - 1 < 0 then '-' else '+') ::
            natDigits (e + ((c :: r :: t').length : Int) - 1).natAbs))) := by
        rw [hmant]
        simp
      rw [hshape, parseChars_signChars s _ hcD]
      have hshape2 : (c :: ('.' :: ((r :: t') ++ 'E' ::
          (if e + ((c :: r :: t').length : Int) - 1 < 0 then '-' else '+') ::
          natDigits (e + ((c :: r :: t').length : Int) - 1).natAbs))) =
          [c] ++ '.' :: ((r :: t') ++ 'E' ::
          (if e + ((c :: r :: t').length : Int) - 1 < 0 then '-' else '+') ::
          natDigits (e + ((c :: r :: t').length : Int) - 1).natAbs) := rfl
      rw [hshape2, parseBody_point_exp s (by simp [hcD])
        (fun x hx => hD x (List.mem_cons_of_mem c hx)) (by simp) hE]
      have hcoeff : ([c] ++ r :: t') = (c :: r :: t') := rfl
      rw [hcoeff]
      congr 1
      congr 1
      simp
      omega

/-- Full decimal round trip: printing any `Dec` with `str(Decimal)` and
reparsing it with the `Decimal` constructor recovers it exactly. -/
theorem Dec.parse_toSci (d : Dec) : Dec.parse d.toSci = some d := by
  obtain ⟨s, c, e⟩ := d
  show Dec.parseChars (Dec.toSciChars ⟨s, c, e⟩) = some ⟨s, c, e⟩
  rw [Dec.toSciChars]
  rw [parseChars_sciFromDigits s (natDigits c) e (natDigits_digits c) (natDigits_ne_nil c)]
  rw [digitsVal_natDigits]

/-! ### Date round trip and validity -/

/-- Days in a month never exceed 31. -/
theorem daysInMonth_le (y m : Nat) : daysInMonth y m ≤ 31 := by
  unfold daysInMonth
  split
  · split <;> omega
  · split <;> omega

/-- A constructible triple passes the `date` constructor unchanged. -/
theorem mkValidDate_of_valid {y m d : Nat} (h : Date.validb ⟨y, m, d⟩ = true) :
    mkValidDate y m d = some ⟨y, m, d⟩ := by
  unfold mkValidDate
  rw [if_pos h]

/-- A date produced by the `date` constructor is constructible. -/
theorem mkValidDate_valid {y m d : Nat} {dt : Date} (h : mkValidDate y m d = some dt) :
    dt.Valid := by
  unfold mkValidDate at h
  split at h
  · cases h
    assumption
  · cases h

/-- Printing a constructible date with `isoformat` and reparsing it with
`fromisoformat` recovers it. -/
theorem Date.parse_isoformat {d : Date} (h : d.Valid) : Date.parse d.isoformat = some d := by
  obtain ⟨y, m, dd⟩ := d
  have hb : 1 ≤ y ∧ y ≤ 9999 ∧ 1 ≤ m ∧ m ≤ 12 ∧ 1 ≤ dd ∧ dd ≤ daysInMonth y m := by
    have hv := h
    simp only [Date.Valid, Date.validb, Bool.and_eq_true, decide_eq_true_eq] at hv
    tauto
  have hdd31 : dd ≤ 31 := le_trans hb.2.2.2.2.2 (daysInMonth_le y m)
  show Date.parseChars (Date.isoformatChars ⟨y, m, dd⟩) = some ⟨y, m, dd⟩
  have hlist : Date.isoformatChars ⟨y, m, dd⟩ =
      [digitChar (y / 1000 % 10), digitChar (y / 100 % 10), digitChar (y / 10 % 10),
       digitChar (y % 10), '-', digitChar (m / 10 % 10), digitChar (m % 10), '-',
       digitChar (dd / 10 % 10), digitChar (dd % 10)] := rfl
  rw [hlist]
  have hm10 : ∀ x : Nat, x % 10 < 10 := fun x => Nat.mod_lt x (by norm_num)
  have hvy : digitsVal [digitChar (y / 1000 % 10), digitChar (y / 100 % 10),
      digitChar (y / 10 % 10), digitChar (y % 10)] = y := by
    simp only [digitsVal, List.foldl, charVal_digitChar (hm10 _)]
    omega
  have hvm : digitsVal [digitChar (m / 10 % 10), digitChar (m % 10)] = m := by
    simp only [digitsVal, List.foldl, charVal_digitChar (hm10 _)]
    omega
  have hvd : digitsVal [digitChar (dd / 10 % 10), digitChar (dd % 10)] = dd := by
    simp only [digitsVal, List.foldl, charVal_digitChar (hm10 _)]
    omega
  simp only [Date.parseChars]
  split
  · rw [hvy, hvm, hvd]
    exact mkValidDate_of_valid h
  · next hF =>
    exact absurd (by simp [isDigit_digitChar, hm10]) hF

/-- Anything `fromisoformat` accepts is a constructible date. -/
theorem Date.parseChars_valid : ∀ {l : List Char} {d : Date}, Date.parseChars l = some d → d.Valid := by
  intro l d h
  unfold Date.parseChars at h
  split at h
  · split at h
    · exact mkValidDate_valid h
    · cases h
  · cases h

/-- String form of `Date.parseChars_valid`. -/
theorem Date.parse_valid {s : String} {d : Date} (h : Date.parse s = some d) : d.Valid :=
  Date.parseChars_valid h

/-! ### Serialization round trip for transactions and the store -/

/-- Deserializing a serialized transaction recovers it field for field. -/
theorem from_json_to_json {t : Transaction} (h : t.occurred_on.Valid) :
    Transaction.from_json (Transaction.to_json t) = .ok t := by
  obtain ⟨tid, uid, a, cat, d, note, tt⟩ := t
  simp only [Transaction.to_json, Transaction.from_json]
  rw [show Dec.parse a.toSci = some a from Dec.parse_toSci a]
  rw [show Date.parse (Date.isoformat d) = some d from Date.parse_isoformat h]
  rfl

/-- A transaction accepted by `from_json` carries a constructible date. -/
theorem from_json_valid {r : TxRecord} {t : Transaction}
    (h : Transaction.from_json r = .ok t) : t.occurred_on.Valid := by
  unfold Transaction.from_json at h
  split at h
  · cases h
  · split at h
    · cases h
    · cases h
      exact Date.parse_valid (by assumption)

/-- Serializing a list of transactions and parsing the records back recovers
the list. -/
theorem parse_records_map_to_json {ts : List Transaction}
    (h : ∀ t ∈ ts, t.occurred_on.Valid) :
    parse_records (ts.map Transaction.to_json) = .ok ts := by
  induction ts with
  | nil => rfl
  | cons t ts ih =>
    simp only [List.map_cons, parse_records]
    rw [from_json_to_json (h t (List.mem_cons_self t ts))]
    rw [ih (fun x hx => h x (List.mem_cons_of_mem t hx))]

/-- `load_all` after `save_all` returns exactly the saved transactions. -/
theorem load_all_save_all {ts : List Transaction} (h : ∀ t ∈ ts, t.occurred_on.Valid) :
    load_all (save_all ts) = .ok ts :=
  parse_records_map_to_json h

/-- Every transaction produced by `parse_records` carries a constructible
date. -/
theorem parse_records_valid : ∀ {recs : List TxRecord} {ts : List Transaction},
    parse_records recs = .ok ts → ∀ t ∈ ts, t.occurred_on.Valid := by
  intro recs
  induction recs with
  | nil =>
    intro ts h t ht
    cases h
    cases ht
  | cons r rs ih =>
    intro ts h t ht
    unfold parse_records at h
    split at h
    · cases h
    · split at h
      · cases h
      · cases h
        rcases List.mem_cons.mp ht with rfl | ht
        · exact from_json_valid (by assumption)
        · exact ih (by assumption) t ht

/-- Every transaction returned by `load_all` carries a constructible date. -/
theorem load_all_valid {st : St} {ts : List Transaction}
    (h : load_all st = .ok ts) : ∀ t ∈ ts, t.occurred_on.Valid := by
  unfold load_all at h
  split at h
  · cases h
    intro t ht
    cases ht
  · exact parse_records_valid h

/-! ### Aggregation loop characterization -/

/-- The transactions `monthly_totals` keeps: same user, same year and month. -/
def tx_match (user_id : String) (year month : Nat) (t : Transaction) : Bool :=
  decide (t.user_id = user_id) &&
  (decide (t.occurred_on.year = year) && decide (t.occurred_on.month = month))

/-- The income test of `monthly_totals`: `t.tx_type.upper() == "INCOME"`. -/
def is_income (t : Transaction) : Bool := decide (upperS t.tx_type = "INCOME")

/-- Sum of a list of decimals, folded from `Decimal("0")` in list order as
the loop does. -/
def sumD (l : List Dec) : Dec := l.foldl Dec.add Dec.zero

/-- The aggregation loop, run from arbitrary accumulators, splits into two
filtered sums: `INCOME`-typed matches and all other matches. -/
theorem totals_loop_eq (u : String) (y mo : Nat) :
    ∀ (txs : List Transaction) (a b : Dec),
    List.foldl
      (fun acc t =>
        if t.user_id = u then
          if t.occurred_on.year = y ∧ t.occurred_on.month = mo then
            if upperS t.tx_type = "INCOME" then (acc.1.add t.amount, acc.2)
            else (acc.1, acc.2.add t.amount)
          else acc
        else acc)
      (a, b) txs =
    (List.foldl Dec.add a ((txs.filter fun t => tx_match u y mo t && is_income t).map Transaction.amount),
     List.foldl Dec.add b ((txs.filter fun t => tx_match u y mo t && !is_income t).map Transaction.amount)) := by
  intro txs
  induction txs with
  | nil => intro a b; rfl
  | cons t ts ih =>
    intro a b
    simp only [List.foldl_cons, List.filter_cons]
    by_cases h1 : t.user_id = u
    · by_cases h2 : t.occurred_on.year = y ∧ t.occurred_on.month = mo
      · have hm : tx_match u y mo t = true := by
          simp [tx_match, h1, h2.1, h2.2]
        by_cases h3 : upperS t.tx_type = "INCOME"
        · have hi : is_income t = true := by simp [is_income, h3]
          rw [if_pos h1, if_pos h2, if_pos h3, ih]
          simp [hm, hi]
        · have hi : is_income t = false := by simp [is_income, h3]
          rw [if_pos h1, if_pos h2, if_neg h3, ih]
          simp [hm, hi]
      · have hm : tx_match u y mo t = false := by
          simp only [tx_match, h1, decide_True, Bool.true_and, Bool.and_eq_false_iff]
          rcases Decidable.not_and_iff_or_not.mp h2 with h | h
          · left; simpa using h
          · right; simpa using h
        rw [if_pos h1, if_neg h2, ih]
        simp [hm]
    · have hm : tx_match u y mo t = false := by
        simp [tx_match, h1]
      rw [if_neg h1, ih]
      simp [hm]

/-- The aggregation loop of `monthly_totals` computes the two filtered sums. -/
theorem totals_fold_spec (txs : List Transaction) (u : String) (y mo : Nat) :
    totals_fold txs u y mo =
      (sumD ((txs.filter fun t => tx_match u y mo t && is_income t).map Transaction.amount),
       sumD ((txs.filter fun t => tx_match u y mo t && !is_income t).map Transaction.amount)) := by
  unfold totals_fold sumD
  exact totals_loop_eq u y mo txs Dec.zero Dec.zero

/-! ### Validator inversion lemmas -/

/-- An unparsable amount is rejected with the amount-format message. -/
theorem validate_amount_none {s : String} (h : Dec.parse (pyStripS s) = none) :
    validate_amount s = .error (.valueError amountInvalidMsg) := by
  unfold validate_amount
  rw [h]

/-- A non-positive amount is rejected with the positivity message. -/
theorem validate_amount_nonpos {s : String} {d : Dec} (h : Dec.parse (pyStripS s) = some d)
    (hnp : d.isNonPos = true) : validate_amount s = .error (.valueError amountNonPosMsg) := by
  unfold validate_amount
  rw [h]
  simp [hnp]

/-- A positive amount is accepted, quantized to cents. -/
theorem validate_amount_ok {s : String} {d : Dec} (h : Dec.parse (pyStripS s) = some d)
    (hnp : d.isNonPos = false) : validate_amount s = .ok d.quantize2 := by
  unfold validate_amount
  rw [h]
  simp [hnp]

/-- Every `validate_amount` failure is a `ValueError`. -/
theorem validate_amount_error_form {s : String} {e : Err}
    (h : validate_amount s = .error e) : ∃ m, e = .valueError m := by
  unfold validate_amount at h
  split at h
  · cases h; exact ⟨_, rfl⟩
  · split at h
    · cases h; exact ⟨_, rfl⟩
    · cases h

/-- A blank category is rejected with the required-category message. -/
theorem validate_category_blank {s : String} (h : pyStripS s = "") :
    validate_category s = .error (.valueError categoryRequiredMsg) := by
  unfold validate_category
  rw [if_pos h]

/-- An over-long category is rejected with the length message. -/
theorem validate_category_long {s : String} (h1 : pyStripS s ≠ "")
    (h2 : 30 < (pyStripS s).length) :
    validate_category s = .error (.valueError categoryTooLongMsg) := by
  unfold validate_category
  rw [if_neg h1, if_pos h2]

/-- Any other category is accepted in stripped form. -/
theorem validate_category_ok {s : String} (h1 : pyStripS s ≠ "")
    (h2 : ¬ 30 < (pyStripS s).length) :
    validate_category s = .ok (pyStripS s) := by
  unfold validate_category
  rw [if_neg h1, if_neg h2]

/-- Every `validate_category` failure is a `ValueError`. -/
theorem validate_category_error_form {s : String} {e : Err}
    (h : validate_category s = .error e) : ∃ m, e = .valueError m := by
  unfold validate_category at h
  split at h
  · cases h; exact ⟨_, rfl⟩
  · split at h
    · cases h; exact ⟨_, rfl⟩
    · cases h

/-- An unparsable date is rejected with the format message. -/
theorem validate_date_none {today : Date} {s : String} (h : Date.parse (pyStripS s) = none) :
    validate_date today s = .error (.valueError dateFormatMsg) := by
  unfold validate_date
  rw [h]

/-- A date strictly after today is rejected with the future message. -/
theorem validate_date_future {today : Date} {s : String} {d : Date}
    (h : Date.parse (pyStripS s) = some d) (hf : today.ltb d = true) :
    validate_date today s = .error (.valueError dateFutureMsg) := by
  unfold validate_date
  rw [h]
  simp [hf]

/-- A parsed date not after today is accepted. -/
theorem validate_date_ok {today : Date} {s : String} {d : Date}
    (h : Date.parse (pyStripS s) = some d) (hf : today.ltb d = false) :
    validate_date today s = .ok d := by
  unfold validate_date
  rw [h]
  simp [hf]

/-- Every `validate_date` failure is a `ValueError`. -/
theorem validate_date_error_form {today : Date} {s : String} {e : Err}
    (h : validate_date today s = .error e) : ∃ m, e = .valueError m := by
  unfold validate_date at h
  split at h
  · cases h; exact ⟨_, rfl⟩
  · split at h
    · cases h; exact ⟨_, rfl⟩
    · cases h

/-- A date accepted by `validate_date` is constructible. -/
theorem validate_date_ok_valid {today : Date} {s : String} {d : Date}
    (h : validate_date today s = .ok d) : d.Valid := by
  unfold validate_date at h
  split at h
  · cases h
  · split at h
    · cases h
    · cases h
      exact Date.parse_valid (by assumption)

/-! ### add_expense path lemmas -/

/-- An amount-validation failure returns immediately with the store
untouched. -/
theorem add_expense_amount_error {st : St} {today : Date} {gid u a c ds note : String}
    {tid : Option String} {e : Err} (h : validate_amount a = .error e) :
    add_expense st today gid u a c ds note tid = (st, .error e) := by
  unfold add_expense
  rw [h]

/-- A category-validation failure returns immediately with the store
untouched. -/
theorem add_expense_category_error {st : St} {today : Date} {gid u a c ds note : String}
    {tid : Option String} {am : Dec} {e : Err} (ha : validate_amount a = .ok am)
    (h : validate_category c = .error e) :
    add_expense st today gid u a c ds note tid = (st, .error e) := by
  unfold add_expense
  rw [ha, h]

/-- A date-validation failure returns immediately with the store untouched. -/
theorem add_expense_date_error {st : St} {today : Date} {gid u a c ds note : String}
    {tid : Option String} {am : Dec} {cc : String} {e : Err} (ha : validate_amount a = .ok am)
    (hc : validate_category c = .ok cc) (h : validate_date today ds = .error e) :
    add_expense st today gid u a c ds note tid = (st, .error e) := by
  unfold add_expense
  rw [ha, hc, h]

/-- The transaction `add_expense` builds after all validations pass. -/
def built_tx (gid u : String) (am : Dec) (cc : String) (dd : Date) (note : String)
    (tid : Option String) : Transaction :=
  { transaction_id := choose_id gid tid
    user_id := u
    amount := am
    category := cc
    occurred_on := dd
    note := pyStripS note
    tx_type := "EXPENSE" }

/-- When every validation passes and the store loads, `add_expense` appends
the built transaction and reports the month's totals. -/
theorem add_expense_success {st : St} {today : Date} {gid u a c ds note : String}
    {tid : Option String} {am : Dec} {cc : String} {dd : Date} {txs : List Transaction}
    (ha : validate_amount a = .ok am) (hc : validate_category c = .ok cc)
    (hd : validate_date today ds = .ok dd) (hl : load_all st = .ok txs) :
    load_all (save_all (txs ++ [built_tx gid u am cc dd note tid])) =
      .ok (txs ++ [built_tx gid u am cc dd note tid]) ∧
    ∃ T : Totals,
      monthly_totals (save_all (txs ++ [built_tx gid u am cc dd note tid])) u
        dd.year dd.month = .ok T ∧
      add_expense st today gid u a c ds note tid =
        (save_all (txs ++ [built_tx gid u am cc dd note tid]),
         .ok ⟨choose_id gid tid, month_label dd, T.income.toSci, T.expense.toSci, T.net.toSci⟩) := by
  have hv : ∀ t ∈ txs ++ [built_tx gid u am cc dd note tid], t.occurred_on.Valid := by
    intro t ht
    rcases List.mem_append.mp ht with ht | ht
    · exact load_all_valid hl t ht
    · rw [List.mem_singleton] at ht
      subst ht
      exact validate_date_ok_valid hd
  have hl2 : load_all (save_all (txs ++ [built_tx gid u am cc dd note tid])) =
      .ok (txs ++ [built_tx gid u am cc dd note tid]) := load_all_save_all hv
  refine ⟨hl2, ⟨(totals_fold (txs ++ [built_tx gid u am cc dd note tid]) u dd.year dd.month).1,
          (totals_fold (txs ++ [built_tx gid u am cc dd note tid]) u dd.year dd.month).2,
          ((totals_fold (txs ++ [built_tx gid u am cc dd note tid]) u dd.year dd.month).1).sub
            ((totals_fold (txs ++ [built_tx gid u am cc dd note tid]) u dd.year dd.month).2)⟩,
        ?_, ?_⟩
  · unfold monthly_totals
    rw [hl2]
  · simp only [built_tx] at hl2
    simp only [add_expense, ha, hc, hd, append, hl, monthly_totals, built_tx, hl2]

/-! ### Claim theorems -/

/-- C1: for every input to `add_expense` failing any validation rule
(unparsable or non-positive amount, blank or over-30-character category,
unparsable or future date), `add_expense` raises a `ValueError` (the
validation-error class) before any persistence side effect: the store state
is returned unchanged, so `load_all` observes exactly the contents it
observed before the call, and no transaction is created or persisted. -/
theorem add_expense_validation_failure (st : St) (today : Date)
    (gid u a c ds note : String) (tid : Option String)
    (h : (∃ e, validate_amount a = .error e) ∨ (∃ e, validate_category c = .error e) ∨
         (∃ e, validate_date today ds = .error e)) :
    (add_expense st today gid u a c ds note tid).1 = st ∧
    load_all (add_expense st today gid u a c ds note tid).1 = load_all st ∧
    ∃ m, (add_expense st today gid u a c ds note tid).2 = .error (.valueError m) := by
  cases hva : validate_amount a with
  | error e =>
    obtain ⟨m, rfl⟩ := validate_amount_error_form hva
    rw [add_expense_amount_error hva]
    exact ⟨rfl, rfl, m, rfl⟩
  | ok am =>
    cases hvc : validate_category c with
    | error e =>
      obtain ⟨m, rfl⟩ := validate_category_error_form hvc
      rw [add_expense_category_error hva hvc]
      exact ⟨rfl, rfl, m, rfl⟩
    | ok cc =>
      cases hvd : validate_date today ds with
      | error e =>
        obtain ⟨m, rfl⟩ := validate_date_error_form hvd
        rw [add_expense_date_error hva hvc hvd]
        exact ⟨rfl, rfl, m, rfl⟩
      | ok dd =>
        exfalso
        rcases h with ⟨e, he⟩ | ⟨e, he⟩ | ⟨e, he⟩ <;> simp_all

/-- Witness for C1 at a concrete non-positive amount. -/
theorem add_expense_validation_failure_witness :
    (add_expense none ⟨2026, 2, 15⟩ "TX-1" "jason" "-5" "Groceries" "2026-02-10" "" none).1 =
      none ∧
    load_all (add_expense none ⟨2026, 2, 15⟩ "TX-1" "jason" "-5" "Groceries" "2026-02-10" ""
      none).1 = load_all none ∧
    ∃ m, (add_expense none ⟨2026, 2, 15⟩ "TX-1" "jason" "-5" "Groceries" "2026-02-10" ""
      none).2 = .error (.valueError m) :=
  add_expense_validation_failure none ⟨2026, 2, 15⟩ "TX-1" "jason" "-5" "Groceries"
    "2026-02-10" "" none (Or.inl ⟨.valueError amountNonPosMsg, by rfl⟩)

/-- C2: for every amount string passed to `add_expense` (other fields valid
and the store loadable): an unparsable trimmed string fails with the
invalid-amount `ValueError`; a parsed value ≤ 0 fails with the non-positive
`ValueError`; otherwise the persisted transaction carries exactly the parsed
value quantized to 2 decimal places with round-half-even (`quantize2`),
observable by reloading the store. -/
theorem add_expense_amount_rules (st : St) (today : Date) (gid u a c ds note : String)
    (tid : Option String) (cc : String) (dd : Date) (txs : List Transaction)
    (hc : validate_category c = .ok cc) (hd : validate_date today ds = .ok dd)
    (hl : load_all st = .ok txs) :
    (Dec.parse (pyStripS a) = none →
      add_expense st today gid u a c ds note tid = (st, .error (.valueError amountInvalidMsg))) ∧
    (∀ d, Dec.parse (pyStripS a) = some d → d.isNonPos = true →
      add_expense st today gid u a c ds note tid = (st, .error (.valueError amountNonPosMsg))) ∧
    (∀ d, Dec.parse (pyStripS a) = some d → d.isNonPos = false →
      ∃ r, (add_expense st today gid u a c ds note tid).2 = .ok r ∧
        (add_expense st today gid u a c ds note tid).1 =
          save_all (txs ++ [built_tx gid u d.quantize2 cc dd note tid]) ∧
        load_all (save_all (txs ++ [built_tx gid u d.quantize2 cc dd note tid])) =
          .ok (txs ++ [built_tx gid u d.quantize2 cc dd note tid])) := by
  refine ⟨?_, ?_, ?_⟩
  · intro hp
    exact add_expense_amount_error (validate_amount_none hp)
  · intro d hp hnp
    exact add_expense_amount_error (validate_amount_nonpos hp hnp)
  · intro d hp hnp
    obtain ⟨hload, T, hT, heq⟩ := add_expense_success (validate_amount_ok hp hnp) hc hd hl
    exact ⟨_, by rw [heq], by rw [heq], hload⟩

/-- Witness for C2: the amount `10.005` (a half-cent tie) is accepted and
stored as `10.00` by round-half-even. -/
theorem add_expense_amount_rules_witness :
    ∃ r, (add_expense none ⟨2026, 2, 15⟩ "TX-1" "jason" "10.005" "Groceries" "2026-02-10" ""
        none).2 = .ok r ∧
      (add_expense none ⟨2026, 2, 15⟩ "TX-1" "jason" "10.005" "Groceries" "2026-02-10" ""
        none).1 =
        save_all ([] ++ [built_tx "TX-1" "jason" (Dec.quantize2 ⟨false, 10005, -3⟩) "Groceries"
          ⟨2026, 2, 10⟩ "" none]) ∧
      load_all (save_all ([] ++ [built_tx "TX-1" "jason" (Dec.quantize2 ⟨false, 10005, -3⟩)
          "Groceries" ⟨2026, 2, 10⟩ "" none])) =
        .ok ([] ++ [built_tx "TX-1" "jason" (Dec.quantize2 ⟨false, 10005, -3⟩) "Groceries"
          ⟨2026, 2, 10⟩ "" none]) :=
  (add_expense_amount_rules none ⟨2026, 2, 15⟩ "TX-1" "jason" "10.005" "Groceries"
    "2026-02-10" "" none "Groceries" ⟨2026, 2, 10⟩ [] (by rfl) (by rfl) (by rfl)).2.2
    ⟨false, 10005, -3⟩ (by rfl) (by rfl)

/-- C5: for every date string passed to `add_expense` (other fields valid
and the store loadable): a trimmed string that is not an ISO-8601
`YYYY-MM-DD` calendar date fails with the date-format `ValueError`; a parsed
date strictly after today fails with the future-date `ValueError`; every
parsed date equal to today or earlier is accepted and the transaction is
persisted with that date. -/
theorem add_expense_date_rules (st : St) (today : Date) (gid u a c note : String)
    (tid : Option String) (ds : String) (am : Dec) (cc : String) (txs : List Transaction)
    (ha : validate_amount a = .ok am) (hc : validate_category c = .ok cc)
    (hl : load_all st = .ok txs) :
    (Date.parse (pyStripS ds) = none →
      add_expense st today gid u a c ds note tid = (st, .error (.valueError dateFormatMsg))) ∧
    (∀ d, Date.parse (pyStripS ds) = some d → today.ltb d = true →
      add_expense st today gid u a c ds note tid = (st, .error (.valueError dateFutureMsg))) ∧
    (∀ d, Date.parse (pyStripS ds) = some d → today.ltb d = false →
      ∃ r, (add_expense st today gid u a c ds note tid).2 = .ok r ∧
        (add_expense st today gid u a c ds note tid).1 =
          save_all (txs ++ [built_tx gid u am cc d note tid]) ∧
        load_all (save_all (txs ++ [built_tx gid u am cc d note tid])) =
          .ok (txs ++ [built_tx gid u am cc d note tid])) := by
  refine ⟨?_, ?_, ?_⟩
  · intro hp
    exact add_expense_date_error ha hc (validate_date_none hp)
  · intro d hp hf
    exact add_expense_date_error ha hc (validate_date_future hp hf)
  · intro d hp hf
    obtain ⟨hload, T, hT, heq⟩ := add_expense_success ha hc (validate_date_ok hp hf) hl
    exact ⟨_, by rw [heq], by rw [heq], hload⟩

/-- Witness for C5: a date equal to today is accepted. -/
theorem add_expense_date_rules_witness :
    ∃ r, (add_expense none ⟨2026, 2, 15⟩ "TX-1" "jason" "5.00" "Groceries" "2026-02-15" ""
        none).2 = .ok r ∧
      (add_expense none ⟨2026, 2, 15⟩ "TX-1" "jason" "5.00" "Groceries" "2026-02-15" ""
        none).1 =
        save_all ([] ++ [built_tx "TX-1" "jason" ⟨false, 500, -2⟩ "Groceries"
          ⟨2026, 2, 15⟩ "" none]) ∧
      load_all (save_all ([] ++ [built_tx "TX-1" "jason" ⟨false, 500, -2⟩ "Groceries"
          ⟨2026, 2, 15⟩ "" none])) =
        .ok ([] ++ [built_tx "TX-1" "jason" ⟨false, 500, -2⟩ "Groceries"
          ⟨2026, 2, 15⟩ "" none]) :=
  (add_expense_date_rules none ⟨2026, 2, 15⟩ "TX-1" "jason" "5.00" "Groceries" "" none
    "2026-02-15" ⟨false, 500, -2⟩ "Groceries" [] (by rfl) (by rfl) (by rfl)).2.2
    ⟨2026, 2, 15⟩ (by rfl) (by rfl)

/-- C6: for every category string passed to `add_expense` (other fields
valid and the store loadable): a string empty after trimming fails with the
required-category `ValueError`; a trimmed string longer than 30 characters
fails with the length `ValueError`; otherwise the persisted transaction
carries exactly the trimmed category. -/
theorem add_expense_category_rules (st : St) (today : Date) (gid u a ds note : String)
    (tid : Option String) (c : String) (am : Dec) (dd : Date) (txs : List Transaction)
    (ha : validate_amount a = .ok am) (hd : validate_date today ds = .ok dd)
    (hl : load_all st = .ok txs) :
    (pyStripS c = "" →
      add_expense st today gid u a c ds note tid = (st, .error (.valueError categoryRequiredMsg))) ∧
    (pyStripS c ≠ "" → 30 < (pyStripS c).length →
      add_expense st today gid u a c ds note tid = (st, .error (.valueError categoryTooLongMsg))) ∧
    (pyStripS c ≠ "" → ¬ 30 < (pyStripS c).length →
      ∃ r, (add_expense st today gid u a c ds note tid).2 = .ok r ∧
        (add_expense st today gid u a c ds note tid).1 =
          save_all (txs ++ [built_tx gid u am (pyStripS c) dd note tid]) ∧
        load_all (save_all (txs ++ [built_tx gid u am (pyStripS c) dd note tid])) =
          .ok (txs ++ [built_tx gid u am (pyStripS c) dd note tid])) := by
  refine ⟨?_, ?_, ?_⟩
  · intro hb
    exact add_expense_category_error ha (validate_category_blank hb)
  · intro hb hlong
    exact add_expense_category_error ha (validate_category_long hb hlong)
  · intro hb hlen
    obtain ⟨hload, T, hT, heq⟩ := add_expense_success ha (validate_category_ok hb hlen) hd hl
    exact ⟨_, by rw [heq], by rw [heq], hload⟩

/-- Witness for C6: a padded category is stored in trimmed form. -/
theorem add_expense_category_rules_witness :
    ∃ r, (add_expense none ⟨2026, 2, 15⟩ "TX-1" "jason" "5.00" "  Groceries  " "2026-02-10" ""
        none).2 = .ok r ∧
      (add_expense none ⟨2026, 2, 15⟩ "TX-1" "jason" "5.00" "  Groceries  " "2026-02-10" ""
        none).1 =
        save_all ([] ++ [built_tx "TX-1" "jason" ⟨false, 500, -2⟩ (pyStripS "  Groceries  ")
          ⟨2026, 2, 10⟩ "" none]) ∧
      load_all (save_all ([] ++ [built_tx "TX-1" "jason" ⟨false, 500, -2⟩
          (pyStripS "  Groceries  ") ⟨2026, 2, 10⟩ "" none])) =
        .ok ([] ++ [built_tx "TX-1" "jason" ⟨false, 500, -2⟩ (pyStripS "  Groceries  ")
          ⟨2026, 2, 10⟩ "" none]) :=
  (add_expense_category_rules none ⟨2026, 2, 15⟩ "TX-1" "jason" "5.00" "2026-02-10" "" none
    "  Groceries  " ⟨false, 500, -2⟩ ⟨2026, 2, 10⟩ [] (by rfl) (by rfl) (by rfl)).2.2
    (by decide) (by decide)

/-- Filtering with a conjunction is empty whenever filtering with the first
conjunct is. -/
theorem filter_and_eq_nil {p q : Transaction → Bool} :
    ∀ {txs : List Transaction}, txs.filter p = [] →
      txs.filter (fun t => p t && q t) = [] := by
  intro txs
  induction txs with
  | nil => intro _; rfl
  | cons t ts ih =>
    intro h
    rw [List.filter_cons] at h ⊢
    by_cases hp : p t = true
    · rw [if_pos hp] at h
      cases h
    · rw [if_neg hp] at h
      have : (p t && q t) = false := by
        simp only [Bool.and_eq_false_iff]
        left
        simpa using hp
      rw [this]
      simp only [Bool.false_eq_true, if_false]
      exact ih h

/-- Per the spec wording of `monthlyTotals` (used to test claim C3): income
sums the kept transactions whose type is INCOME case-insensitively, and
expense sums the kept transactions whose type is EXPENSE case-insensitively. -/
def monthly_totals_per_spec (txs : List Transaction) (u : String) (y mo : Nat) : Totals :=
  let inc := sumD ((txs.filter fun t =>
    tx_match u y mo t && decide (upperS t.tx_type = "INCOME")).map Transaction.amount)
  let ex := sumD ((txs.filter fun t =>
    tx_match u y mo t && decide (upperS t.tx_type = "EXPENSE")).map Transaction.amount)
  ⟨inc, ex, inc.sub ex⟩

/-- Counterexample to C3 as stated: a stored transaction of type `"MISC"`
(neither INCOME nor EXPENSE) is counted in the expense total by the code,
while the claimed expense sum over EXPENSE-typed transactions is zero. -/
theorem monthly_totals_c3_counterexample :
    load_all (some [⟨"t1", "u", "5", "Food", "2020-02-10", some "", some "MISC"⟩]) =
      .ok [⟨"t1", "u", ⟨false, 5, 0⟩, "Food", ⟨2020, 2, 10⟩, "", "MISC"⟩] ∧
    monthly_totals (some [⟨"t1", "u", "5", "Food", "2020-02-10", some "", some "MISC"⟩])
      "u" 2020 2 = .ok ⟨⟨false, 0, 0⟩, ⟨false, 5, 0⟩, ⟨true, 5, 0⟩⟩ ∧
    monthly_totals_per_spec [⟨"t1", "u", ⟨false, 5, 0⟩, "Food", ⟨2020, 2, 10⟩, "", "MISC"⟩]
      "u" 2020 2 = ⟨⟨false, 0, 0⟩, ⟨false, 0, 0⟩, ⟨false, 0, 0⟩⟩ ∧
    monthly_totals (some [⟨"t1", "u", "5", "Food", "2020-02-10", some "", some "MISC"⟩])
      "u" 2020 2 ≠
      .ok (monthly_totals_per_spec
        [⟨"t1", "u", ⟨false, 5, 0⟩, "Food", ⟨2020, 2, 10⟩, "", "MISC"⟩] "u" 2020 2) := by
  refine ⟨by decide, by decide, by decide, by decide⟩

/-- C3 (amended): `monthly_totals` loads the full sequence, keeps exactly
the transactions matching the user and the year/month, returns income equal
to the sum of kept INCOME-typed amounts (case-insensitively), expense equal
to the sum of ALL OTHER kept amounts (any type not matching INCOME — not
only EXPENSE), and net = income - expense; it only reads the store, and it
returns all-zero totals when no transaction matches. -/
theorem monthly_totals_characterization (st : St) (u : String) (y mo : Nat)
    (txs : List Transaction) (hl : load_all st = .ok txs) :
    monthly_totals st u y mo =
      .ok ⟨sumD ((txs.filter fun t => tx_match u y mo t && is_income t).map Transaction.amount),
           sumD ((txs.filter fun t => tx_match u y mo t && !is_income t).map Transaction.amount),
           (sumD ((txs.filter fun t => tx_match u y mo t && is_income t).map Transaction.amount)).sub
             (sumD ((txs.filter fun t => tx_match u y mo t && !is_income t).map Transaction.amount))⟩ ∧
    (txs.filter (tx_match u y mo) = [] →
      monthly_totals st u y mo = .ok ⟨Dec.zero, Dec.zero, Dec.zero⟩) := by
  have hmain : monthly_totals st u y mo =
      .ok ⟨sumD ((txs.filter fun t => tx_match u y mo t && is_income t).map Transaction.amount),
           sumD ((txs.filter fun t => tx_match u y mo t && !is_income t).map Transaction.amount),
           (sumD ((txs.filter fun t => tx_match u y mo t && is_income t).map Transaction.amount)).sub
             (sumD ((txs.filter fun t => tx_match u y mo t && !is_income t).map Transaction.amount))⟩ := by
    simp only [monthly_totals, hl, totals_fold_spec]
  refine ⟨hmain, ?_⟩
  intro hnone
  rw [hmain, filter_and_eq_nil hnone, filter_and_eq_nil hnone]
  simp only [List.map_nil]
  rfl

/-- Witness for C3 (amended) on a two-transaction store. -/
theorem monthly_totals_characterization_witness :
    monthly_totals (some [⟨"t1", "u", "10.00", "Food", "2020-02-10", some "", some "EXPENSE"⟩,
        ⟨"t2", "u", "3.50", "Pay", "2020-02-11", some "", some "income"⟩]) "u" 2020 2 =
      .ok ⟨sumD ((([⟨"t1", "u", ⟨false, 1000, -2⟩, "Food", ⟨2020, 2, 10⟩, "", "EXPENSE"⟩,
             (⟨"t2", "u", ⟨false, 350, -2⟩, "Pay", ⟨2020, 2, 11⟩, "", "income"⟩ : Transaction)].filter
             fun t => tx_match "u" 2020 2 t && is_income t)).map Transaction.amount),
           sumD ((([⟨"t1", "u", ⟨false, 1000, -2⟩, "Food", ⟨2020, 2, 10⟩, "", "EXPENSE"⟩,
             (⟨"t2", "u", ⟨false, 350, -2⟩, "Pay", ⟨2020, 2, 11⟩, "", "income"⟩ : Transaction)].filter
             fun t => tx_match "u" 2020 2 t && !is_income t)).map Transaction.amount),
           (sumD ((([⟨"t1", "u", ⟨false, 1000, -2⟩, "Food", ⟨2020, 2, 10⟩, "", "EXPENSE"⟩,
             (⟨"t2", "u", ⟨false, 350, -2⟩, "Pay", ⟨2020, 2, 11⟩, "", "income"⟩ : Transaction)].filter
             fun t => tx_match "u" 2020 2 t && is_income t)).map Transaction.amount)).sub
             (sumD ((([⟨"t1", "u", ⟨false, 1000, -2⟩, "Food", ⟨2020, 2, 10⟩, "", "EXPENSE"⟩,
             (⟨"t2", "u", ⟨false, 350, -2⟩, "Pay", ⟨2020, 2, 11⟩, "", "income"⟩ : Transaction)].filter
             fun t => tx_match "u" 2020 2 t && !is_income t)).map Transaction.amount))⟩ :=
  (monthly_totals_characterization
    (some [⟨"t1", "u", "10.00", "Food", "2020-02-10", some "", some "EXPENSE"⟩,
           ⟨"t2", "u", "3.50", "Pay", "2020-02-11", some "", some "income"⟩]) "u" 2020 2
    [⟨"t1", "u", ⟨false, 1000, -2⟩, "Food", ⟨2020, 2, 10⟩, "", "EXPENSE"⟩,
     ⟨"t2", "u", ⟨false, 350, -2⟩, "Pay", ⟨2020, 2, 11⟩, "", "income"⟩] (by decide)).1

/-- C10: the expense side of the aggregation loop is the catch-all else
branch: every kept transaction whose type is not a case variant of INCOME —
including types outside the INCOME/EXPENSE enumeration — contributes to the
expense total. -/
theorem monthly_totals_expense_catchall (st : St) (u : String) (y mo : Nat)
    (txs : List Transaction) (hl : load_all st = .ok txs) :
    ∃ T : Totals, monthly_totals st u y mo = .ok T ∧
      T.expense =
        sumD ((txs.filter fun t => tx_match u y mo t && !is_income t).map Transaction.amount) := by
  refine ⟨⟨(totals_fold txs u y mo).1, (totals_fold txs u y mo).2,
    (totals_fold txs u y mo).1.sub (totals_fold txs u y mo).2⟩, ?_, ?_⟩
  · simp only [monthly_totals, hl]
  · show (totals_fold txs u y mo).2 = _
    rw [totals_fold_spec]

/-- Witness for C10: an empty-string type and a misspelled type both land in
the expense total. -/
theorem monthly_totals_expense_catchall_witness :
    ∃ T : Totals,
      monthly_totals (some [⟨"t1", "u", "2", "a", "2020-02-10", some "", some ""⟩,
        ⟨"t2", "u", "3", "b", "2020-02-11", some "", some "EXPENSES"⟩]) "u" 2020 2 = .ok T ∧
      T.expense =
        sumD ((([⟨"t1", "u", ⟨false, 2, 0⟩, "a", ⟨2020, 2, 10⟩, "", ""⟩,
          (⟨"t2", "u", ⟨false, 3, 0⟩, "b", ⟨2020, 2, 11⟩, "", "EXPENSES"⟩ : Transaction)].filter
          fun t => tx_match "u" 2020 2 t && !is_income t)).map Transaction.amount) :=
  monthly_totals_expense_catchall
    (some [⟨"t1", "u", "2", "a", "2020-02-10", some "", some ""⟩,
           ⟨"t2", "u", "3", "b", "2020-02-11", some "", some "EXPENSES"⟩]) "u" 2020 2
    [⟨"t1", "u", ⟨false, 2, 0⟩, "a", ⟨2020, 2, 10⟩, "", ""⟩,
     ⟨"t2", "u", ⟨false, 3, 0⟩, "b", ⟨2020, 2, 11⟩, "", "EXPENSES"⟩] (by decide)

/-- C4: serialization round trip.  For every transaction sequence written by
`save_all`, reloading yields exactly that sequence, so saving what was
loaded rewrites the identical serialized record; equivalently, `from_json`
after `to_json` recovers every transaction field for field. -/
theorem save_load_roundtrip (ts : List Transaction)
    (h : ∀ t ∈ ts, t.occurred_on.Valid) :
    load_all (save_all ts) = .ok ts ∧
    (∀ txs2, load_all (save_all ts) = .ok txs2 → save_all txs2 = save_all ts) ∧
    (∀ t ∈ ts, Transaction.from_json (Transaction.to_json t) = .ok t) := by
  have h1 := load_all_save_all h
  refine ⟨h1, ?_, ?_⟩
  · intro txs2 h2
    rw [h1] at h2
    cases h2
    rfl
  · intro t ht
    exact from_json_to_json (h t ht)

/-- Witness for C4 on a one-transaction store. -/
theorem save_load_roundtrip_witness :
    load_all (save_all [⟨"t1", "jason", ⟨false, 1250, -2⟩, "Food", ⟨2020, 2, 10⟩, "milk",
        "EXPENSE"⟩]) =
      .ok [⟨"t1", "jason", ⟨false, 1250, -2⟩, "Food", ⟨2020, 2, 10⟩, "milk", "EXPENSE"⟩] ∧
    (∀ txs2, load_all (save_all [⟨"t1", "jason", ⟨false, 1250, -2⟩, "Food", ⟨2020, 2, 10⟩,
        "milk", "EXPENSE"⟩]) = .ok txs2 →
      save_all txs2 =
        save_all [⟨"t1", "jason", ⟨false, 1250, -2⟩, "Food", ⟨2020, 2, 10⟩, "milk",
          "EXPENSE"⟩]) ∧
    (∀ t ∈ [(⟨"t1", "jason", ⟨false, 1250, -2⟩, "Food", ⟨2020, 2, 10⟩, "milk",
        "EXPENSE"⟩ : Transaction)],
      Transaction.from_json (Transaction.to_json t) = .ok t) :=
  save_load_roundtrip
    [⟨"t1", "jason", ⟨false, 1250, -2⟩, "Food", ⟨2020, 2, 10⟩, "milk", "EXPENSE"⟩]
    (by decide)

/-- A record with an unparsable amount or date makes `from_json` raise. -/
theorem from_json_malformed {r : TxRecord}
    (h : Dec.parse r.amount = none ∨ Date.parse r.occurred_on = none) :
    ∃ e, Transaction.from_json r = .error e := by
  unfold Transaction.from_json
  rcases h with h | h
  · rw [h]
    exact ⟨.invalidOperation, rfl⟩
  · cases hpa : Dec.parse r.amount with
    | none => exact ⟨.invalidOperation, rfl⟩
    | some a =>
      rw [h]
      exact ⟨.valueError ("Invalid isoformat string: " ++ r.occurred_on), rfl⟩

/-- A failing record anywhere in the list makes `parse_records` raise. -/
theorem parse_records_error_of_mem {r : TxRecord} {e : Err} :
    ∀ {recs : List TxRecord}, r ∈ recs → Transaction.from_json r = .error e →
      ∃ e2, parse_records recs = .error e2 := by
  intro recs
  induction recs with
  | nil =>
    intro hmem _
    cases hmem
  | cons a as ih =>
    intro hmem hfail
    rcases List.mem_cons.mp hmem with rfl | hmem
    · refine ⟨e, ?_⟩
      unfold parse_records
      rw [hfail]
    · cases hfa : Transaction.from_json a with
      | error e3 =>
        refine ⟨e3, ?_⟩
        unfold parse_records
        rw [hfa]
      | ok t =>
        obtain ⟨e2, h2⟩ := ih hmem hfail
        refine ⟨e2, ?_⟩
        unfold parse_records
        rw [hfa, h2]

/-- Counterexample to C7 as stated: the code defines no `PersistenceError`
class.  A stored record with a malformed date makes `load_all` raise plain
`ValueError` — the very class every validation failure uses — and a
malformed amount raises `decimal.InvalidOperation`; neither is a distinct
persistence-error condition. -/
theorem load_all_error_class_counterexample :
    load_all (some [⟨"t1", "u", "5.00", "Food", "2020-99-99", some "", some "EXPENSE"⟩]) =
      .error (.valueError ("Invalid isoformat string: " ++ "2020-99-99")) ∧
    validate_date ⟨2026, 1, 1⟩ "bad" = .error (.valueError dateFormatMsg) ∧
    load_all (some [⟨"t1", "u", "xx", "Food", "2020-01-01", some "", some "EXPENSE"⟩]) =
      .error Err.invalidOperation := by
  refine ⟨by decide, by decide, by decide⟩

/-- Characters that can occur in a finite decimal literal accepted by
`Dec.parseChars`: digits, signs, the point and the exponent marker. -/
def decLitChar (c : Char) : Bool :=
  c.isDigit || c = '+' || c = '-' || c = '.' || c = 'e' || c = 'E'

/-- The preprocessing the `Decimal` constructor applies to its string
argument before matching the numeric-string grammar: strip surrounding
whitespace, then remove every underscore. -/
def decPreprocessChars (l : List Char) : List Char :=
  (pyStrip l).filter (fun c => c != '_')

/-- Special-value branch of the `Decimal` numeric-string grammar: an
optional sign followed by `Inf`, `Infinity`, or `NaN`/`sNaN` with an
optional digit payload, case-insensitively. -/
def decSpecialb (l : List Char) : Bool :=
  let low := (parseSign l).2.map Char.toLower
  low = ['i', 'n', 'f'] || low = ['i', 'n', 'f', 'i', 'n', 'i', 't', 'y'] ||
  (match low with
   | 'n' :: 'a' :: 'n' :: ds => ds.all Char.isDigit
   | 's' :: 'n' :: 'a' :: 'n' :: ds => ds.all Char.isDigit
   | _ => false)

/-- Full acceptance of the Python `Decimal` constructor on a string: after
stripping whitespace and removing underscores, the input is either a finite
numeric literal or a special value (`NaN`, `sNaN`, `Inf`, `Infinity`).
`Transaction.from_json` and the `Dec` arithmetic cover only the finite
branch; this predicate delimits exactly which amount strings the real
constructor raises `InvalidOperation` on. -/
def pyDecAccepts (s : String) : Bool :=
  (Dec.parseChars (decPreprocessChars s.data)).isSome ||
    decSpecialb (decPreprocessChars s.data)

/-- Acceptance boundary of the modelled constructor: special values,
underscored and whitespace-padded literals are accepted as Python accepts
them; genuinely malformed strings are rejected. -/
theorem pyDecAccepts_examples :
    pyDecAccepts "NaN" = true ∧ pyDecAccepts "-Infinity" = true ∧
    pyDecAccepts "snan42" = true ∧ pyDecAccepts "1_0" = true ∧
    pyDecAccepts " 5 " = true ∧ pyDecAccepts "inf" = true ∧
    pyDecAccepts "xx" = false ∧ pyDecAccepts "" = false ∧
    pyDecAccepts "12a3" = false ∧ pyDecAccepts "in f" = false := by
  decide

/-- Members of a `takeWhile` satisfy the predicate. -/
theorem mem_takeWhile_pred {p : Char → Bool} :
    ∀ {l : List Char} {a : Char}, a ∈ l.takeWhile p → p a = true := by
  intro l
  induction l with
  | nil =>
    intro a h
    cases h
  | cons c t ih =>
    intro a h
    rw [List.takeWhile_cons] at h
    by_cases hc : p c = true
    · rw [if_pos hc] at h
      rcases List.mem_cons.mp h with rfl | h
      · exact hc
      · exact ih h
    · rw [if_neg hc] at h
      cases h

/-- An empty `dropWhile` means every element satisfies the predicate. -/
theorem all_of_dropWhile_nil {p : Char → Bool} {l : List Char}
    (h : l.dropWhile p = []) : ∀ a ∈ l, p a = true := by
  intro a ha
  have hl : l.takeWhile p ++ l.dropWhile p = l := List.takeWhile_append_dropWhile p l
  rw [h, List.append_nil] at hl
  rw [← hl] at ha
  exact mem_takeWhile_pred ha

/-- The sign parser either leaves its input alone or consumes exactly one
leading `+`/`-`. -/
theorem parseSign_cases (l : List Char) :
    (parseSign l).2 = l ∨
    ∃ c t, l = c :: t ∧ (c = '+' ∨ c = '-') ∧ (parseSign l).2 = t := by
  cases l with
  | nil => exact Or.inl rfl
  | cons c t =>
    by_cases h1 : c = '+'
    · subst h1
      exact Or.inr ⟨'+', t, rfl, Or.inl rfl, by rw [parseSign_plus]⟩
    · by_cases h2 : c = '-'
      · subst h2
        exact Or.inr ⟨'-', t, rfl, Or.inr rfl, by rw [parseSign_minus]⟩
      · exact Or.inl (by rw [parseSign_other h1 h2])

/-- Every character of an accepted exponent suffix is a literal character. -/
theorem parseExpPart_chars : ∀ {l : List Char} {E : Int},
    parseExpPart l = some E → ∀ c ∈ l, decLitChar c = true := by
  intro l E h
  cases l with
  | nil =>
    intro c hc
    cases hc
  | cons a rest =>
    unfold parseExpPart at h
    dsimp only at h
    split at h
    · next hae =>
      have hdigits : ∀ c ∈ (parseSign rest).2, c.isDigit = true := by
        split at h
        · cases h
        · split at h
          · next hnil =>
            exact all_of_dropWhile_nil hnil
          · cases h
      intro c hc
      rcases List.mem_cons.mp hc with rfl | hc
      · rcases hae with rfl | rfl <;> decide
      · rcases parseSign_cases rest with hps | ⟨s0, t, rfl, hs, hps⟩
        · have := hdigits c (by rw [hps]; exact hc)
          simp [decLitChar, this]
        · rcases List.mem_cons.mp hc with rfl | hc
          · rcases hs with rfl | rfl <;> decide
          · have := hdigits c (by rw [hps]; exact hc)
            simp [decLitChar, this]
    · cases h

/-- Every character of an accepted literal body is a literal character. -/
theorem parseBody_chars {s : Bool} {r : List Char} {d : Dec}
    (h : parseBody s r = some d) : ∀ c ∈ r, decLitChar c = true := by
  simp only [parseBody, readDigits] at h
  have hE : ∃ E, parseExpPart (splitFrac (r.dropWhile Char.isDigit)).2 = some E := by
    split at h
    · cases h
    · split at h
      · cases h
      · next E hsome => exact ⟨E, hsome⟩
  obtain ⟨E, hE⟩ := hE
  have hr : r.takeWhile Char.isDigit ++ r.dropWhile Char.isDigit = r :=
    List.takeWhile_append_dropWhile Char.isDigit r
  intro c hc
  rw [← hr] at hc
  rcases List.mem_append.mp hc with hc | hc
  · have := mem_takeWhile_pred hc
    simp [decLitChar, this]
  · cases hdw : r.dropWhile Char.isDigit with
    | nil =>
      rw [hdw] at hc
      cases hc
    | cons b t =>
      rw [hdw] at hc hE
      by_cases hb : b = '.'
      · subst hb
        rw [splitFrac_dot] at hE
        simp only [readDigits] at hE
        rcases List.mem_cons.mp hc with rfl | hc
        · decide
        · have ht : t.takeWhile Char.isDigit ++ t.dropWhile Char.isDigit = t :=
            List.takeWhile_append_dropWhile Char.isDigit t
          rw [← ht] at hc
          rcases List.mem_append.mp hc with hc | hc
          · have := mem_takeWhile_pred hc
            simp [decLitChar, this]
          · exact parseExpPart_chars hE c hc
      · rw [splitFrac_not_dot t hb] at hE
        exact parseExpPart_chars hE c hc

/-- Every character of a string accepted by the finite-literal parser is a
literal character. -/
theorem parseChars_chars {l : List Char} {d : Dec} (h : Dec.parseChars l = some d) :
    ∀ c ∈ l, decLitChar c = true := by
  have hb : parseBody (parseSign l).1 (parseSign l).2 = some d := h
  rcases parseSign_cases l with hcase | ⟨c0, t, rfl, hs, h2⟩
  · rw [hcase] at hb
    exact parseBody_chars hb
  · intro c hc
    rcases List.mem_cons.mp hc with rfl | hc
    · rcases hs with rfl | rfl <;> decide
    · rw [h2] at hb
      exact parseBody_chars hb c hc

/-- Literal characters are not whitespace. -/
theorem decLitChar_not_space {c : Char} (h : decLitChar c = true) : pyIsSpace c = false := by
  by_contra hs
  rw [Bool.not_eq_false] at hs
  simp only [pyIsSpace, Bool.or_eq_true, decide_eq_true_eq] at hs
  rcases hs with ((((rfl | rfl) | rfl) | rfl) | rfl) | rfl <;> exact absurd h (by decide)

/-- Literal characters are not underscores. -/
theorem decLitChar_ne_underscore {c : Char} (h : decLitChar c = true) : (c != '_') = true := by
  by_contra hu
  rw [Bool.not_eq_true, bne_eq_false_iff_eq] at hu
  subst hu
  exact absurd h (by decide)

/-- A list all of whose elements fail the predicate is untouched by
`dropWhile`. -/
theorem dropWhile_all_false {p : Char → Bool} {l : List Char}
    (h : ∀ c ∈ l, p c = false) : l.dropWhile p = l := by
  cases l with
  | nil => rfl
  | cons c t =>
    rw [List.dropWhile_cons, h c (List.mem_cons_self c t)]
    simp

/-- Stripping a list with no whitespace at all is the identity. -/
theorem pyStrip_eq_self {l : List Char} (h : ∀ c ∈ l, pyIsSpace c = false) :
    pyStrip l = l := by
  unfold pyStrip
  rw [dropWhile_all_false h]
  rw [dropWhile_all_false (fun c hc => h c (List.mem_reverse.mp hc))]
  exact List.reverse_reverse l

/-- The constructor's preprocessing is the identity on a string made of
literal characters. -/
theorem decPreprocess_id {l : List Char} (h : ∀ c ∈ l, decLitChar c = true) :
    decPreprocessChars l = l := by
  unfold decPreprocessChars
  rw [pyStrip_eq_self (fun c hc => decLitChar_not_space (h c hc))]
  exact List.filter_eq_self.mpr (fun c hc => decLitChar_ne_underscore (h c hc))

/-- Anything the finite-literal parser accepts, the full constructor
accepts: a parsed literal contains no whitespace or underscore, so the
preprocessing leaves it alone and the finite branch fires. -/
theorem pyDecAccepts_of_parse {s : String} {d : Dec} (h : Dec.parse s = some d) :
    pyDecAccepts s = true := by
  have hch : ∀ c ∈ s.data, decLitChar c = true := parseChars_chars h
  unfold pyDecAccepts
  rw [decPreprocess_id hch]
  rw [show Dec.parseChars s.data = some d from h]
  rfl

/-- A string the constructor rejects is in particular no finite literal. -/
theorem dec_parse_none_of_not_accepts {s : String} (h : pyDecAccepts s = false) :
    Dec.parse s = none := by
  cases hp : Dec.parse s with
  | none => rfl
  | some d =>
    rw [pyDecAccepts_of_parse hp] at h
    cases h

/-- C7 (amended): for every existing backing record containing a transaction
whose amount string is rejected by the `Decimal` constructor (after its
whitespace stripping and underscore removal it is neither a finite numeric
literal nor a special value `NaN`/`sNaN`/`Inf`/`Infinity`) or whose date is
not an ISO-8601 date string, `load_all` fails by raising the underlying
parse exception (`decimal.InvalidOperation` for amounts, `ValueError` for
dates) — it never silently skips or defaults the record; no distinct
`PersistenceError` class exists in the code. -/
theorem load_all_malformed_fails (recs : List TxRecord)
    (h : ∃ r ∈ recs, pyDecAccepts r.amount = false ∨ Date.parse r.occurred_on = none) :
    ∃ e, load_all (some recs) = .error e ∧
      (e = .invalidOperation ∨ ∃ m, e = .valueError m) := by
  obtain ⟨r, hr, hbad⟩ := h
  have hbad2 : Dec.parse r.amount = none ∨ Date.parse r.occurred_on = none := by
    rcases hbad with hb | hb
    · exact Or.inl (dec_parse_none_of_not_accepts hb)
    · exact Or.inr hb
  obtain ⟨e, he⟩ := from_json_malformed hbad2
  obtain ⟨e2, h2⟩ := parse_records_error_of_mem hr he
  refine ⟨e2, h2, ?_⟩
  cases e2 with
  | valueError m => exact Or.inr ⟨m, rfl⟩
  | invalidOperation => exact Or.inl rfl

/-- Witness for C7 (amended): the amount `"xx"`, which the real constructor
rejects with `InvalidOperation`. -/
theorem load_all_malformed_fails_witness :
    ∃ e, load_all (some [⟨"t1", "u", "xx", "Food", "2020-01-01", some "", some "EXPENSE"⟩]) =
      .error e ∧ (e = .invalidOperation ∨ ∃ m, e = .valueError m) :=
  load_all_malformed_fails [⟨"t1", "u", "xx", "Food", "2020-01-01", some "", some "EXPENSE"⟩]
    ⟨⟨"t1", "u", "xx", "Food", "2020-01-01", some "", some "EXPENSE"⟩,
      List.mem_singleton.mpr rfl, Or.inl (by decide)⟩

/-- C8: `load_all` of a missing backing record is the empty sequence, and
`append` is `load_all`, push, `save_all`: after appending `t` to a loadable
store holding `txs`, the file holds the serialization of `txs ++ [t]` and a
subsequent `load_all` returns exactly `txs ++ [t]`, earlier insertion order
preserved. -/
theorem append_spec :
    load_all none = .ok [] ∧
    ∀ (st : St) (txs : List Transaction) (t : Transaction),
      load_all st = .ok txs → t.occurred_on.Valid →
      append st t = (save_all (txs ++ [t]), .ok ()) ∧
      load_all (append st t).1 = .ok (txs ++ [t]) := by
  refine ⟨rfl, ?_⟩
  intro st txs t hl hv
  have happ : append st t = (save_all (txs ++ [t]), .ok ()) := by
    unfold append
    rw [hl]
  have hval : ∀ x ∈ txs ++ [t], x.occurred_on.Valid := by
    intro x hx
    rcases List.mem_append.mp hx with hx | hx
    · exact load_all_valid hl x hx
    · rw [List.mem_singleton] at hx
      subst hx
      exact hv
  refine ⟨happ, ?_⟩
  rw [happ]
  exact load_all_save_all hval

/-- Witness for C8: appending to a one-transaction store preserves order. -/
theorem append_spec_witness :
    append (save_all [⟨"t1", "u", ⟨false, 5, 0⟩, "Food", ⟨2020, 2, 10⟩, "", "EXPENSE"⟩])
        ⟨"t2", "u", ⟨false, 7, 0⟩, "Rent", ⟨2020, 3, 1⟩, "", "EXPENSE"⟩ =
      (save_all ([⟨"t1", "u", ⟨false, 5, 0⟩, "Food", ⟨2020, 2, 10⟩, "", "EXPENSE"⟩] ++
        [⟨"t2", "u", ⟨false, 7, 0⟩, "Rent", ⟨2020, 3, 1⟩, "", "EXPENSE"⟩]), .ok ()) ∧
    load_all (append (save_all [⟨"t1", "u", ⟨false, 5, 0⟩, "Food", ⟨2020, 2, 10⟩, "",
        "EXPENSE"⟩]) ⟨"t2", "u", ⟨false, 7, 0⟩, "Rent", ⟨2020, 3, 1⟩, "", "EXPENSE"⟩).1 =
      .ok ([⟨"t1", "u", ⟨false, 5, 0⟩, "Food", ⟨2020, 2, 10⟩, "", "EXPENSE"⟩] ++
        [⟨"t2", "u", ⟨false, 7, 0⟩, "Rent", ⟨2020, 3, 1⟩, "", "EXPENSE"⟩]) :=
  append_spec.2 (save_all [⟨"t1", "u", ⟨false, 5, 0⟩, "Food", ⟨2020, 2, 10⟩, "", "EXPENSE"⟩])
    [⟨"t1", "u", ⟨false, 5, 0⟩, "Food", ⟨2020, 2, 10⟩, "", "EXPENSE"⟩]
    ⟨"t2", "u", ⟨false, 7, 0⟩, "Rent", ⟨2020, 3, 1⟩, "", "EXPENSE"⟩ (by decide) (by decide)

/-- C9: deserialization tolerates missing `note` and `tx_type` keys —
defaulting them to `""` and `"EXPENSE"` — and accepts any string whatsoever
as `tx_type`, with no validation against the INCOME/EXPENSE enumeration. -/
theorem from_json_defaults (tid uid amt cat dt : String) (d : Dec) (dd : Date)
    (ha : Dec.parse amt = some d) (hd : Date.parse dt = some dd) :
    Transaction.from_json ⟨tid, uid, amt, cat, dt, none, none⟩ =
      .ok ⟨tid, uid, d, cat, dd, "", "EXPENSE"⟩ ∧
    (∀ nt : String, Transaction.from_json ⟨tid, uid, amt, cat, dt, some nt, none⟩ =
      .ok ⟨tid, uid, d, cat, dd, nt, "EXPENSE"⟩) ∧
    (∀ tt : String, Transaction.from_json ⟨tid, uid, amt, cat, dt, none, some tt⟩ =
      .ok ⟨tid, uid, d, cat, dd, "", tt⟩) := by
  refine ⟨?_, ?_, ?_⟩ <;> simp [Transaction.from_json, ha, hd]

/-- Witness for C9, including a tx_type outside the enumeration. -/
theorem from_json_defaults_witness :
    Transaction.from_json ⟨"t1", "u", "5", "Food", "2020-02-10", none, none⟩ =
      .ok ⟨"t1", "u", ⟨false, 5, 0⟩, "Food", ⟨2020, 2, 10⟩, "", "EXPENSE"⟩ ∧
    (∀ nt : String, Transaction.from_json ⟨"t1", "u", "5", "Food", "2020-02-10", some nt,
        none⟩ = .ok ⟨"t1", "u", ⟨false, 5, 0⟩, "Food", ⟨2020, 2, 10⟩, nt, "EXPENSE"⟩) ∧
    (∀ tt : String, Transaction.from_json ⟨"t1", "u", "5", "Food", "2020-02-10", none,
        some tt⟩ = .ok ⟨"t1", "u", ⟨false, 5, 0⟩, "Food", ⟨2020, 2, 10⟩, "", tt⟩) :=
  from_json_defaults "t1" "u" "5" "Food" "2020-02-10" ⟨false, 5, 0⟩ ⟨2020, 2, 10⟩
    (by decide) (by decide)
